import Mathlib

set_option maxRecDepth 8000

/-!
Verification development for the HTML-rewriting proxy function
(netlify/functions/proxy.js).

Strings are modelled as `List Char` (JavaScript strings, one entry per code
point). Platform builtins used by the source (the WHATWG URL constructor,
encodeURIComponent / decodeURIComponent, JSON.parse, Buffer base64) are
modelled here explicitly; each model notes its simplifications in its doc
comment. Everything else is translated directly from proxy.js.
-/

namespace CGProxy

/-! ### Character helpers (ASCII models of the JavaScript string builtins) -/

/-- ASCII uppercase letter test. -/
def isAsciiUpper (c : Char) : Bool := 65 ≤ c.toNat && c.toNat ≤ 90

/-- ASCII lowercase letter test. -/
def isAsciiLower (c : Char) : Bool := 97 ≤ c.toNat && c.toNat ≤ 122

/-- ASCII letter test. -/
def isAsciiAlphaCh (c : Char) : Bool := isAsciiUpper c || isAsciiLower c

/-- ASCII digit test. -/
def isAsciiDigitCh (c : Char) : Bool := 48 ≤ c.toNat && c.toNat ≤ 57

/-- Models String.prototype.toLowerCase for one character (ASCII range only;
the source only compares against ASCII literals). -/
def lowerCh (c : Char) : Char :=
  if isAsciiUpper c then Char.ofNat (c.toNat + 32) else c

/-- Models String.prototype.toLowerCase (ASCII range). -/
def lowerStr (s : List Char) : List Char := s.map lowerCh

/-- Whitespace class of String.prototype.trim and of the regex class \s
(ASCII members: tab, lf, vt, ff, cr, space). -/
def isJsWhitespace (c : Char) : Bool :=
  c.toNat = 9 || c.toNat = 10 || c.toNat = 11 || c.toNat = 12 || c.toNat = 13 || c.toNat = 32

/-- Models String.prototype.trim (ASCII whitespace). -/
def trimJs (s : List Char) : List Char :=
  ((s.dropWhile isJsWhitespace).reverse.dropWhile isJsWhitespace).reverse

/-- C0 control or space, the class the WHATWG URL parser strips from the
ends of its input. -/
def isC0OrSpace (c : Char) : Bool := c.toNat ≤ 32

/-- Tab or newline, removed everywhere by the WHATWG URL parser. -/
def isTabOrNewline (c : Char) : Bool := c.toNat = 9 || c.toNat = 10 || c.toNat = 13

/-- Models the WHATWG URL input preprocessing: strip leading and trailing
C0-control-or-space characters, remove all tabs and newlines. -/
def stripInput (s : List Char) : List Char :=
  (((s.dropWhile isC0OrSpace).reverse.dropWhile isC0OrSpace).reverse).filter
    (fun c => !isTabOrNewline c)

/-- Models String.prototype.startsWith. -/
def startsWithL : List Char → List Char → Bool
  | [], _ => true
  | _ :: _, [] => false
  | p :: ps, c :: cs => p == c && startsWithL ps cs

/-- Models String.prototype.endsWith. -/
def endsWithL (suffix s : List Char) : Bool := startsWithL suffix.reverse s.reverse

/-- Splits a list at the first character satisfying the predicate; the
second component starts with that character when one exists. -/
def breakAt (p : Char → Bool) : List Char → List Char × List Char
  | [] => ([], [])
  | c :: cs =>
    if p c then ([], c :: cs)
    else
      let r := breakAt p cs
      (c :: r.1, r.2)

/-- Models String.prototype.split with a one-character separator given by
its code point. Always returns at least one part. -/
def splitOnCh (k : Nat) : List Char → List (List Char)
  | [] => [[]]
  | c :: rest =>
    if c.toNat = k then [] :: splitOnCh k rest
    else
      match splitOnCh k rest with
      | [] => [[c]]
      | s :: ss => (c :: s) :: ss

/-- Numeric value of a list of ASCII digits, most significant first. -/
def digitsVal (l : List Char) : Nat := l.foldl (fun acc c => acc * 10 + (c.toNat - 48)) 0

/-! ### Association lists modelling JavaScript plain objects
(header maps, query parameter maps, element attribute maps). -/

/-- Models property lookup on a JavaScript object represented as an entry
list: the first binding of the key wins. -/
def lookupKey : List (List Char × List Char) → List Char → Option (List Char)
  | [], _ => none
  | kv :: rest, k => if kv.1 = k then some kv.2 else lookupKey rest k

/-- Models property assignment on a JavaScript object: an existing binding
is replaced in place, otherwise the binding is appended. -/
def objectSet : List (List Char × List Char) → List Char → List Char → List (List Char × List Char)
  | [], k, v => [(k, v)]
  | kv :: rest, k, v => if kv.1 = k then (k, v) :: rest else kv :: objectSet rest k v

/-- Models Headers.prototype.get: key comparison is case-insensitive (the
queried key is given in lowercase). -/
def lookupHeaderCI : List (List Char × List Char) → List Char → Option (List Char)
  | [], _ => none
  | kv :: rest, k => if lowerStr kv.1 = k then some kv.2 else lookupHeaderCI rest k

/-! ### Host Guard (proxy.js lines 14 to 27) -/

/-- Models the regex alternative (1[6-9]|2[0-9]|3[0-1]) sandwiched between
the literal pieces of the pattern matching 172.16.x through 172.31.x. -/
def matches172Range (h : List Char) : Bool :=
  match h with
  | '1' :: '7' :: '2' :: '.' :: d1 :: d2 :: '.' :: _ =>
    if (d1 = '1' ∧ '6' ≤ d2 ∧ d2 ≤ '9') ∨ (d1 = '2' ∧ isAsciiDigitCh d2 = true) ∨
        (d1 = '3' ∧ (d2 = '0' ∨ d2 = '1')) then true else false
  | _ => false

/-- Translation of isBlockedHost and BLOCKED_HOST_PATTERNS from proxy.js:
empty hostname is blocked; otherwise the hostname is blocked when it is
exactly localhost case-insensitively, starts with 127. or 10. or 192.168.
or 0., matches 172. with second octet 16 to 31, or ends with .local
case-insensitively. -/
def isBlockedHost (hostname : List Char) : Bool :=
  if hostname = [] then true
  else
    (lowerStr hostname = "localhost".data)
    || startsWithL "127.".data hostname
    || startsWithL "10.".data hostname
    || startsWithL "192.168.".data hostname
    || matches172Range hostname
    || endsWithL ".local".data (lowerStr hostname)
    || startsWithL "0.".data hostname

/-! ### encodeURIComponent / decodeURIComponent models -/

/-- Characters encodeURIComponent leaves as-is: ASCII letters, digits, and
- _ . ! ~ * then apostrophe then ( ). -/
def isUriUnreserved (c : Char) : Bool :=
  isAsciiAlphaCh c || isAsciiDigitCh c ||
  c.toNat = 45 || c.toNat = 95 || c.toNat = 46 || c.toNat = 33 || c.toNat = 126 ||
  c.toNat = 42 || c.toNat = 39 || c.toNat = 40 || c.toNat = 41

/-- Uppercase hex digit for a value below 16, as produced by
encodeURIComponent. -/
def hexDigitChar (n : Nat) : Char :=
  match n with
  | 0 => '0' | 1 => '1' | 2 => '2' | 3 => '3' | 4 => '4'
  | 5 => '5' | 6 => '6' | 7 => '7' | 8 => '8' | 9 => '9'
  | 10 => 'A' | 11 => 'B' | 12 => 'C' | 13 => 'D' | 14 => 'E' | 15 => 'F'
  | _ => '0'

/-- Value of a hex digit, either case, as accepted by decodeURIComponent. -/
def hexVal (c : Char) : Option Nat :=
  if 48 ≤ c.toNat ∧ c.toNat ≤ 57 then some (c.toNat - 48)
  else if 65 ≤ c.toNat ∧ c.toNat ≤ 70 then some (c.toNat - 55)
  else if 97 ≤ c.toNat ∧ c.toNat ≤ 102 then some (c.toNat - 87)
  else none

/-- UTF-8 byte sequence of a Unicode scalar value. -/
def utf8Bytes (n : Nat) : List Nat :=
  if n < 128 then [n]
  else if n < 2048 then [192 + n / 64, 128 + n % 64]
  else if n < 65536 then [224 + n / 4096, 128 + (n / 64) % 64, 128 + n % 64]
  else [240 + n / 262144, 128 + (n / 4096) % 64, 128 + (n / 64) % 64, 128 + n % 64]

/-- Percent-encoding of one byte. -/
def pctByte (b : Nat) : List Char := ['%', hexDigitChar (b / 16), hexDigitChar (b % 16)]

/-- Encoding of one character under encodeURIComponent: unreserved
characters pass through, everything else becomes percent-encoded UTF-8. -/
def encChar (c : Char) : List Char :=
  if isUriUnreserved c then [c] else (utf8Bytes c.toNat).flatMap pctByte

/-- Models the JavaScript builtin encodeURIComponent. -/
def encodeURIComponent (s : List Char) : List Char := s.flatMap encChar

/-- Token sequence produced for one character by the encoder; used to
relate the two decoder passes to the encoder. -/
def encTokens (c : Char) : List (Sum Char Nat) :=
  if isUriUnreserved c then [Sum.inl c] else (utf8Bytes c.toNat).map Sum.inr

/-- First pass of the decodeURIComponent model: replace every percent
escape by its byte value, keeping other characters. Fails on a malformed
escape, as the builtin throws URIError. -/
def pctDecodeTokens : List Char → Option (List (Sum Char Nat))
  | [] => some []
  | c :: rest =>
    if c.toNat = 37 then
      match rest with
      | a :: b :: rest2 =>
        match hexVal a, hexVal b with
        | some ha, some hb => (pctDecodeTokens rest2).map (fun ts => Sum.inr (16 * ha + hb) :: ts)
        | _, _ => none
      | _ => none
    else (pctDecodeTokens rest).map (fun ts => Sum.inl c :: ts)

/-- Reads one UTF-8 continuation byte from a token: it must be an escape
byte in the continuation range, as the builtin requires. -/
def contRead : Sum Char Nat → Option Nat
  | Sum.inl _ => none
  | Sum.inr n => if 128 ≤ n ∧ n < 192 then some n else none

/-- Reads one continuation byte from the head of a token list. -/
def contSplit1 : List (Sum Char Nat) → Option (Nat × List (Sum Char Nat))
  | t1 :: ts2 =>
    match contRead t1 with
    | some n1 => some (n1, ts2)
    | none => none
  | [] => none

/-- Reads two continuation bytes from the head of a token list. -/
def contSplit2 : List (Sum Char Nat) → Option (Nat × Nat × List (Sum Char Nat))
  | t1 :: t2 :: ts2 =>
    match contRead t1, contRead t2 with
    | some n1, some n2 => some (n1, n2, ts2)
    | _, _ => none
  | _ => none

/-- Reads three continuation bytes from the head of a token list. -/
def contSplit3 : List (Sum Char Nat) → Option (Nat × Nat × Nat × List (Sum Char Nat))
  | t1 :: t2 :: t3 :: ts2 =>
    match contRead t1, contRead t2, contRead t3 with
    | some n1, some n2, some n3 => some (n1, n2, n3, ts2)
    | _, _, _ => none
  | _ => none

/-- Reads one decoded character from the front of the token list: a
literal character passes through; an escape byte starts a UTF-8 sequence
(lead-byte ranges, continuation ranges, overlong forms, surrogates and
out-of-range values rejected, as the builtin throws URIError on them).
Returns the character and the remaining tokens. -/
def utf8ReadOne : List (Sum Char Nat) → Option (Char × List (Sum Char Nat))
  | [] => none
  | Sum.inl c :: ts => some (c, ts)
  | Sum.inr n0 :: ts =>
    if n0 < 128 then some (Char.ofNat n0, ts)
    else if 194 ≤ n0 ∧ n0 < 224 then
      match contSplit1 ts with
      | some p => some (Char.ofNat ((n0 - 192) * 64 + (p.1 - 128)), p.2)
      | none => none
    else if 224 ≤ n0 ∧ n0 < 240 then
      match contSplit2 ts with
      | some p =>
        let n := (n0 - 224) * 4096 + (p.1 - 128) * 64 + (p.2.1 - 128)
        if 2048 ≤ n ∧ (n < 55296 ∨ 57343 < n) then some (Char.ofNat n, p.2.2) else none
      | none => none
    else if 240 ≤ n0 ∧ n0 < 245 then
      match contSplit3 ts with
      | some p =>
        let n := (n0 - 240) * 262144 + (p.1 - 128) * 4096 + (p.2.1 - 128) * 64 + (p.2.2.1 - 128)
        if 65536 ≤ n ∧ n < 1114112 then some (Char.ofNat n, p.2.2.2) else none
      | none => none
    else none

/-- Fuel-indexed second pass of the decodeURIComponent model: repeatedly
read one character. The fuel only bounds the recursion; one token is
consumed per step, so fuel equal to the list length always suffices. -/
def utf8AssembleF : Nat → List (Sum Char Nat) → Option (List Char)
  | _, [] => some []
  | 0, _ :: _ => none
  | f + 1, t :: ts =>
    match utf8ReadOne (t :: ts) with
    | some p => (utf8AssembleF f p.2).map (fun l => p.1 :: l)
    | none => none

/-- Second pass of the decodeURIComponent model at its canonical fuel. -/
def utf8Assemble (ts : List (Sum Char Nat)) : Option (List Char) :=
  utf8AssembleF ts.length ts

/-- Models the JavaScript builtin decodeURIComponent as the two passes
composed. Failure is `none` where the builtin throws. -/
def decodeURIComponent (s : List Char) : Option (List Char) :=
  (pctDecodeTokens s).bind utf8Assemble

/-! ### WHATWG URL model

Model of the platform URL constructor used by proxy.js via new URL(...).
It covers absolute http and https URLs (lowercased scheme and host,
default-port removal, dot-segment path normalization, verbatim query and
fragment) and treats every other scheme as a non-special URL whose body is
kept verbatim. Simplifications, each noted where relevant: no userinfo,
no IPv6 bracket syntax, no percent-decoding inside hostnames, no
percent-encode sets applied to path, query or fragment on serialization,
no backslash-as-slash handling, and a relative reference against a
non-special base fails. -/

/-- Parsed URL: either a hierarchical http(s) URL or a non-special URL kept
as scheme plus verbatim remainder. -/
inductive URLModel where
  | hier (scheme host : List Char) (port : Option Nat) (segs : List (List Char))
      (query : Option (List Char)) (fragment : Option (List Char))
  | other (scheme rest : List Char)
deriving DecidableEq, Repr

/-- Scheme of a parsed URL. -/
def schemeOfURL : URLModel → List Char
  | .hier sch _ _ _ _ _ => sch
  | .other sch _ => sch

/-- Hostname of a parsed URL; non-special URLs have an empty hostname, as
the platform URL object reports for them. -/
def hostOfURL : URLModel → List Char
  | .hier _ host _ _ _ _ => host
  | .other _ _ => []

/-- Scheme characters allowed after the first (letters, digits, + - .). -/
def isSchemeTailCh (c : Char) : Bool :=
  isAsciiAlphaCh c || isAsciiDigitCh c || c.toNat = 43 || c.toNat = 45 || c.toNat = 46

/-- The special schemes the model parses hierarchically. -/
def isSpecialScheme (sch : List Char) : Bool := sch = "http".data || sch = "https".data

/-- Splits off a URL scheme: the part before the first colon when it is a
letter followed by scheme characters. Returns the lowercased scheme and
the remainder after the colon. -/
def splitScheme (s : List Char) : Option (List Char × List Char) :=
  let br := breakAt (fun c => c.toNat = 58) s
  match br.2 with
  | _ :: rest =>
    match br.1 with
    | [] => none
    | c0 :: tl =>
      if isAsciiAlphaCh c0 && tl.all isSchemeTailCh then some (lowerStr br.1, rest)
      else none
  | [] => none

/-- Characters that make a hostname invalid in this model: controls, space,
and the delimiter set, including percent (a simplification: the platform
percent-decodes hostnames instead). -/
def isForbiddenHostCh (c : Char) : Bool :=
  c.toNat ≤ 32 || c.toNat = 35 || c.toNat = 37 || c.toNat = 47 || c.toNat = 58 ||
  c.toNat = 60 || c.toNat = 62 || c.toNat = 63 || c.toNat = 64 || c.toNat = 91 ||
  c.toNat = 92 || c.toNat = 93 || c.toNat = 94 || c.toNat = 124 || c.toNat = 34

/-- Parses host and optional port from an authority with no userinfo.
The port must be all digits and below 65536; a default port (80 for http,
443 for https) is dropped. An empty host fails, as it does on the platform
for special schemes. -/
def parseHostPort (sch hp : List Char) : Option (List Char × Option Nat) :=
  let br := breakAt (fun c => c.toNat = 58) hp
  if br.1 = [] then none
  else if br.1.any isForbiddenHostCh then none
  else
    let host := lowerStr br.1
    match br.2 with
    | [] => some (host, none)
    | _ :: p =>
      if p = [] then some (host, none)
      else if p.all isAsciiDigitCh then
        let pn := digitsVal p
        if pn < 65536 then
          if (sch = "http".data ∧ pn = 80) ∨ (sch = "https".data ∧ pn = 443) then
            some (host, none)
          else some (host, some pn)
        else none
      else none

/-- Splits path, query and fragment: the fragment starts at the first
hash, the query at the first question mark before it. -/
def splitPathQueryFrag (s : List Char) : List Char × Option (List Char) × Option (List Char) :=
  let brF := breakAt (fun c => c.toNat = 35) s
  let frag : Option (List Char) := match brF.2 with | [] => none | _ :: f => some f
  let brQ := breakAt (fun c => c.toNat = 63) brF.1
  let q : Option (List Char) := match brQ.2 with | [] => none | _ :: qq => some qq
  (brQ.1, q, frag)

/-- Raw slash-separated segments of a path that may begin with a slash. -/
def pathRawSegs (p : List Char) : List (List Char) :=
  match p with
  | [] => []
  | c :: rest => if c.toNat = 47 then splitOnCh 47 rest else splitOnCh 47 p

/-- Dot-segment removal over a segment list, following the WHATWG path
state: double-dot pops the last collected segment, single-dot is skipped,
and a trailing dot or double-dot leaves a trailing empty segment. -/
def procSegs (acc : List (List Char)) : List (List Char) → List (List Char)
  | [] => acc
  | seg :: rest =>
    match rest with
    | [] =>
      if seg = ['.', '.'] then acc.dropLast ++ [[]]
      else if seg = ['.'] then acc ++ [[]]
      else acc ++ [seg]
    | _ :: _ =>
      if seg = ['.', '.'] then procSegs acc.dropLast rest
      else if seg = ['.'] then procSegs acc rest
      else procSegs (acc ++ [seg]) rest

/-- Parses the remainder of a special-scheme URL after the scheme and any
run of slashes: authority, then path, query and fragment. -/
def parseHierRest (sch r : List Char) : Option URLModel :=
  let brA := breakAt (fun c => c.toNat = 47 || c.toNat = 63 || c.toNat = 35) r
  match parseHostPort sch brA.1 with
  | none => none
  | some (host, port) =>
    let pqf := splitPathQueryFrag brA.2
    some (.hier sch host port (procSegs [] (pathRawSegs pqf.1)) pqf.2.1 pqf.2.2)

/-- Models new URL(s) with no base: absolute URLs only. Special schemes
are parsed hierarchically after skipping every slash following the colon;
other schemes keep their remainder verbatim. -/
def parseURL (s : List Char) : Option URLModel :=
  let i := stripInput s
  match splitScheme i with
  | none => none
  | some (sch, rest) =>
    if isSpecialScheme sch then parseHierRest sch (rest.dropWhile (fun c => c.toNat = 47))
    else some (.other sch rest)

/-- Resolves a path-absolute, query-only or fragment-only reference
against the components of a hierarchical base. -/
def rootRelParse (sch host : List Char) (port : Option Nat) (i : List Char) : Option URLModel :=
  let pqf := splitPathQueryFrag i
  some (.hier sch host port (procSegs [] (pathRawSegs pqf.1)) pqf.2.1 pqf.2.2)

/-- Resolves a schemeless relative reference against a base URL, following
the WHATWG relative state: protocol-relative references reparse the
authority, a leading slash is path-absolute, a leading question mark
replaces the query, a leading hash replaces the fragment, and anything
else merges with the base path before dot-segment removal. A non-special
base fails (simplification; the handler only supplies http(s) bases). -/
def resolveRel (b : URLModel) (i : List Char) : Option URLModel :=
  match b with
  | .other _ _ => none
  | .hier sch host port segs q _ =>
    match i with
    | [] => some (.hier sch host port segs q none)
    | c :: rest =>
      if c.toNat = 47 then
        match rest with
        | c2 :: _ =>
          if c2.toNat = 47 then parseHierRest sch (rest.dropWhile (fun x => x.toNat = 47))
          else rootRelParse sch host port i
        | [] => rootRelParse sch host port i
      else if c.toNat = 63 then
        let brF := breakAt (fun x => x.toNat = 35) rest
        some (.hier sch host port segs (some brF.1)
          (match brF.2 with | [] => none | _ :: f => some f))
      else if c.toNat = 35 then
        some (.hier sch host port segs q (some rest))
      else
        let pqf := splitPathQueryFrag i
        some (.hier sch host port (procSegs [] (segs.dropLast ++ splitOnCh 47 pqf.1)) pqf.2.1 pqf.2.2)

/-- True when the list starts with two slashes. -/
def twoSlashes (r : List Char) : Bool :=
  match r with
  | a :: b :: _ => a.toNat = 47 && b.toNat = 47
  | _ => false

/-- Models new URL(input, base) given the already-parsed base: an input
with a special scheme equal to the base scheme and no double slash is
treated as relative (the WHATWG special-relative quirk); other special
inputs reparse from the authority; non-special inputs are kept verbatim;
schemeless inputs resolve against the base. -/
def parseWithBase (input : List Char) (b : URLModel) : Option URLModel :=
  let i := stripInput input
  match splitScheme i with
  | some (sch, rest) =>
    if isSpecialScheme sch then
      if sch = schemeOfURL b ∧ twoSlashes rest = false then resolveRel b rest
      else parseHierRest sch (rest.dropWhile (fun c => c.toNat = 47))
    else some (.other sch rest)
  | none => resolveRel b i

/-- Serialization of the scheme, host and port of a hierarchical URL, and
of the scheme of a non-special one. -/
def originOf : URLModel → List Char
  | .hier sch host port _ _ _ =>
    sch ++ ':' :: '/' :: '/' :: host ++
      (match port with | none => [] | some p => ':' :: (Nat.repr p).data)
  | .other sch _ => sch ++ [':']

/-- Models the href getter: serialization of a parsed URL. -/
def hrefOf : URLModel → List Char
  | .hier sch host port segs q f =>
    originOf (.hier sch host port segs q f) ++
      '/' :: List.intercalate ['/'] segs ++
      (match q with | none => [] | some qq => '?' :: qq) ++
      (match f with | none => [] | some ff => '#' :: ff)
  | .other sch rest => sch ++ ':' :: rest

/-- Models new URL(input, base).href for string base and input: the base
is parsed first (an unparseable base fails the whole construction, as the
platform constructor throws), then the input is resolved against it. -/
def resolveURL (input base : List Char) : Option (List Char) :=
  match parseURL base with
  | none => none
  | some b => (parseWithBase input b).map hrefOf

/-! ### URL Rewriter (proxy.js lines 29 to 55) -/

/-- The fixed path-and-query stem of every rewritten link, from
makeProxyUrl in proxy.js. -/
def proxyStem : List Char := "/.netlify/functions/proxy?url=".data

/-- Translation of makeProxyUrl: the function URL with the encoded target
appended as the url query parameter. -/
def makeProxyUrl (target : List Char) : List Char := proxyStem ++ encodeURIComponent target

/-- The percent-encoded url parameter embedded in a proxy-relative link,
when the link has the shape produced by makeProxyUrl. -/
def embeddedParam (v : List Char) : Option (List Char) :=
  if startsWithL proxyStem v then some (v.drop proxyStem.length) else none

/-- The non-navigable test from shouldRewriteAttr: after trim and
toLowerCase the value starts with data: or javascript: or mailto: or a
hash. -/
def nonNavigableVal (val : List Char) : Bool :=
  let v := lowerStr (trimJs val)
  startsWithL "data:".data v || startsWithL "javascript:".data v ||
    startsWithL "mailto:".data v || startsWithL "#".data v

/-- Translation of shouldRewriteAttr from proxy.js: false on an empty
value, otherwise the negation of the non-navigable prefix test. -/
def shouldRewriteAttr (val : List Char) : Bool :=
  if val = [] then false else !nonNavigableVal val

/-- Translation of maybeRewriteUrl from proxy.js: empty and non-navigable
values pass through, otherwise the value is resolved against the base and
wrapped by makeProxyUrl; a resolution failure (the catch branch) returns
the value unchanged. -/
def maybeRewriteUrl (attrValue baseUrl : List Char) : List Char :=
  if attrValue = [] then attrValue
  else if shouldRewriteAttr attrValue = false then attrValue
  else
    match resolveURL attrValue baseUrl with
    | some resolved => makeProxyUrl resolved
    | none => attrValue

/-- Translation of isHtmlContentType from proxy.js: empty content type is
not HTML; otherwise the part before the first semicolon, trimmed and
lowercased, must equal text/html. -/
def isHtmlContentType (ct : List Char) : Bool :=
  if ct = [] then false
  else lowerStr (trimJs ((splitOnCh 59 ct).headD [])) = "text/html".data

/-- The media-type portion of a content type as the spec phrases it: the
text before the first semicolon. -/
def mediaTypePart (ct : List Char) : List Char := (breakAt (fun c => c.toNat = 59) ct).1

/-! ### Base64 model (Buffer.prototype.toString with base64) -/

/-- The standard base64 alphabet. -/
def b64Alphabet : List Char :=
  "ABCDEFGHIJKLMNOPQRSTUVWXYZabcdefghijklmnopqrstuvwxyz0123456789+/".data

/-- Base64 digit for a value below 64. -/
def b64Ch (n : Nat) : Char := b64Alphabet.getD n 'A'

/-- Value of a base64 digit. -/
def b64Val (c : Char) : Option Nat :=
  if 65 ≤ c.toNat ∧ c.toNat ≤ 90 then some (c.toNat - 65)
  else if 97 ≤ c.toNat ∧ c.toNat ≤ 122 then some (c.toNat - 97 + 26)
  else if 48 ≤ c.toNat ∧ c.toNat ≤ 57 then some (c.toNat - 48 + 52)
  else if c.toNat = 43 then some 62
  else if c.toNat = 47 then some 63
  else none

/-- Models Buffer base64 encoding of a byte list, with padding. -/
def base64Encode : List Nat → List Char
  | [] => []
  | [a] => [b64Ch (a / 4), b64Ch (a % 4 * 16), '=', '=']
  | [a, b] => [b64Ch (a / 4), b64Ch (a % 4 * 16 + b / 16), b64Ch (b % 16 * 4), '=']
  | a :: b :: c :: rest =>
    b64Ch (a / 4) :: b64Ch (a % 4 * 16 + b / 16) :: b64Ch (b % 16 * 4 + c / 64) ::
      b64Ch (c % 64) :: base64Encode rest

/-- Strict base64 decoding, inverse of base64Encode on canonical input. -/
def base64Decode : List Char → Option (List Nat)
  | [] => some []
  | c0 :: c1 :: c2 :: c3 :: rest =>
    if rest = [] ∧ c2 = '=' ∧ c3 = '=' then
      match b64Val c0, b64Val c1 with
      | some v0, some v1 => if v1 % 16 = 0 then some [v0 * 4 + v1 / 16] else none
      | _, _ => none
    else if rest = [] ∧ c3 = '=' then
      match b64Val c0, b64Val c1, b64Val c2 with
      | some v0, some v1, some v2 =>
        if v2 % 4 = 0 then some [v0 * 4 + v1 / 16, v1 % 16 * 16 + v2 / 4] else none
      | _, _, _ => none
    else
      match b64Val c0, b64Val c1, b64Val c2, b64Val c3 with
      | some v0, some v1, some v2, some v3 =>
        (base64Decode rest).map
          (fun l => (v0 * 4 + v1 / 16) :: (v1 % 16 * 16 + v2 / 4) :: (v2 % 4 * 64 + v3) :: l)
      | _, _, _, _ => none
  | _ => none

/-! ### Response Transformer (proxy.js lines 140 to 197)

The HTML body is represented after parsing, as the list of elements the
rewriting pass visits; cheerio.load and the serializer are external
library code, modelled by this element list and a simple serialization.
The injected banner div carries no link-bearing attribute and is omitted
from the element model. -/

/-- One HTML element as seen by the rewriting pass: tag name and attribute
map. -/
structure Elem where
  tag : List Char
  attrs : List (List Char × List Char)
deriving DecidableEq, Repr

/-- The fixed element and attribute table from proxy.js lines 144 to 154. -/
def attrTable : List (List Char × List Char) :=
  [("a".data, "href".data), ("link".data, "href".data), ("script".data, "src".data),
   ("img".data, "src".data), ("iframe".data, "src".data), ("form".data, "action".data),
   ("source".data, "src".data), ("video".data, "src".data), ("audio".data, "src".data)]

/-- Models the regex replace of a leading optional whitespace-then-url=
(case-insensitive) from the meta refresh url part: when the pattern
matches, the matched prefix is removed; otherwise the string is kept. -/
def stripUrlEq (s : List Char) : List Char :=
  let rest := s.dropWhile isJsWhitespace
  if lowerStr (rest.take 4) = "url=".data then rest.drop 4 else s

/-- Translation of the meta refresh content rewrite (proxy.js lines 174 to
181): split on every semicolon; when more than one part exists, join the
parts after the first back with semicolons, strip an optional leading
url=, rewrite, store url= plus the result as the second part, and join. -/
def metaRefreshContent (baseUrl content : List Char) : List Char :=
  let parts := splitOnCh 59 content
  if 1 < parts.length then
    let urlPart := stripUrlEq (List.intercalate [';'] (parts.drop 1))
    let newUrl := maybeRewriteUrl urlPart baseUrl
    List.intercalate [';'] (parts.set 1 ("url=".data ++ newUrl))
  else content

/-- Models the meta refresh pass of the transformer for one element: a
meta element with an http-equiv attribute equal to refresh
case-insensitively has its content attribute rewritten. -/
def metaTransform (baseUrl : List Char) (e : Elem) : Elem :=
  if e.tag = "meta".data then
    match lookupKey e.attrs "http-equiv".data with
    | some he =>
      if lowerStr he = "refresh".data then
        match lookupKey e.attrs "content".data with
        | some content =>
          { e with attrs := objectSet e.attrs "content".data (metaRefreshContent baseUrl content) }
        | none =>
          { e with attrs := objectSet e.attrs "content".data (metaRefreshContent baseUrl []) }
      else e
    | none => e
  else e

/-- Models the attribute rewriting pass of the transformer for one
element: when the tag is in the fixed table and the matching attribute is
present and non-empty, it is replaced by the rewritten value; meta
elements go through the meta refresh pass instead. -/
def transformElem (baseUrl : List Char) (e : Elem) : Elem :=
  match attrTable.find? (fun p => p.1 == e.tag) with
  | some p =>
    match lookupKey e.attrs p.2 with
    | some v =>
      if v = [] then e
      else { e with attrs := objectSet e.attrs p.2 (maybeRewriteUrl v baseUrl) }
    | none => e
  | none => metaTransform baseUrl e

/-- The C1 invariant exactly as the specification states it: every
link-bearing attribute value present in the transformed document is either
a non-navigable value or a proxy-relative link whose embedded parameter
decodes to the absolute resolution of the original value against the
base. -/
def c1AsStated (doc : List Elem) (base : List Char) : Prop :=
  ∀ e ∈ doc, ∀ p ∈ attrTable, e.tag = p.1 →
    ∀ v, lookupKey (transformElem base e).attrs p.2 = some v →
      nonNavigableVal v = true ∨
      (∃ u orig, lookupKey e.attrs p.2 = some orig ∧ resolveURL orig base = some u ∧
        embeddedParam v = some (encodeURIComponent u) ∧
        decodeURIComponent (encodeURIComponent u) = some u)

/-- Simple serialization of one element of the model: tag then attributes.
Stands in for the cheerio serializer, which is external library code. -/
def serializeElem (e : Elem) : List Char :=
  '<' :: e.tag ++
    (e.attrs.flatMap (fun kv => ' ' :: kv.1 ++ '=' :: '"' :: kv.2 ++ ['"'])) ++ ['>']

/-- Serialization of the element list model of the document. -/
def serializeDoc (doc : List Elem) : List Char := doc.flatMap serializeElem

/-! ### Request Handler (proxy.js lines 62 to 218) -/

/-- The inbound event record, as the handler reads it. -/
structure NFEvent where
  httpMethod : List Char
  headers : List (List Char × List Char)
  queryStringParameters : List (List Char × List Char)
  body : Option (List Char)
  isBase64Encoded : Bool
deriving DecidableEq, Repr

/-- The outbound response record; a response literal with no headers field
is modelled by an empty header list. -/
structure NFResponse where
  statusCode : Nat
  headers : List (List Char × List Char)
  body : List Char
  isBase64Encoded : Bool
deriving DecidableEq, Repr

/-- The upstream fetch result as the handler consumes it: status, header
entries (as iterated after Object.fromEntries), the final URL after
redirects, the parsed HTML element list (for the text path) and the raw
body bytes (for the binary path). -/
structure UpstreamResponse where
  status : Nat
  headers : List (List Char × List Char)
  url : List Char
  doc : List Elem
  bytes : List Nat
deriving Repr

/-- The fixed preflight reply for OPTIONS requests (proxy.js lines 65 to
75). -/
def corsPreflightResponse : NFResponse :=
  { statusCode := 204
    headers :=
      [("access-control-allow-origin".data, "*".data),
       ("access-control-allow-methods".data, "GET,POST,PUT,PATCH,DELETE,OPTIONS".data),
       ("access-control-allow-headers".data, "Content-Type,Authorization,X-Proxy-Key".data)]
    body := []
    isBase64Encoded := false }

/-- The fixed set of upstream headers dropped before responding
(proxy.js line 128), compared on the lowercased key. -/
def blockedRespHeader (k : List Char) : Bool :=
  let key := lowerStr k
  key = "content-security-policy".data || key = "content-security-policy-report-only".data ||
    key = "x-frame-options".data || key = "set-cookie".data || key = "transfer-encoding".data

/-- Builds the outbound header object (proxy.js lines 125 to 136): copy
the upstream headers minus the blocked set, then set the permissive
cross-origin header, then set the expose-headers list to the joined key
list. -/
def buildOutHeaders (resHeaders : List (List Char × List Char)) : List (List Char × List Char) :=
  let filtered := resHeaders.filter (fun kv => !blockedRespHeader kv.1)
  let withCors := objectSet filtered "access-control-allow-origin".data "*".data
  objectSet withCors "access-control-expose-headers".data
    (List.intercalate [','] (withCors.map (fun kv => kv.1)))

/-- Extraction of the target URL (proxy.js line 78): the url query
parameter when truthy, else, when a non-empty body exists, the url field
of its JSON parse. The JSON parser is passed in as the model of the
platform builtin: none models a parse exception, which propagates; a
parsed object is modelled by its optional url string field. -/
def extractTarget (jsonParse : List Char → Option (Option (List Char))) (event : NFEvent) :
    Except (List Char) (Option (List Char)) :=
  let qsUrl := (lookupKey event.queryStringParameters "url".data).getD []
  if qsUrl ≠ [] then .ok (some qsUrl)
  else
    match event.body with
    | none => .ok none
    | some b =>
      if b = [] then .ok none
      else
        match jsonParse b with
        | none => .error "SyntaxError: Unexpected token in JSON".data
        | some urlField =>
          match urlField with
          | none => .ok none
          | some u => if u = [] then .ok none else .ok (some u)

/-- The optional key check (proxy.js lines 84 to 90): with a configured
key, the x-proxy-key header (either spelling) or the key query parameter
must equal it. -/
def authorizedCheck (apiKey : Option (List Char)) (event : NFEvent) : Bool :=
  match apiKey with
  | none => true
  | some k =>
    let headerKey :=
      (match lookupKey event.headers "x-proxy-key".data with
       | some v => some v
       | none => lookupKey event.headers "X-Proxy-Key".data).getD []
    let qsKey := (lookupKey event.queryStringParameters "key".data).getD []
    if headerKey = k ∨ qsKey = k then true else false

/-- The body of the try block of the handler (proxy.js lines 63 to 209).
The upstream fetch result is a parameter: an error value models a fetch
rejection, which propagates to the catch. The error channel of the result
models a thrown exception. -/
def handlerInner (apiKey : Option (List Char))
    (jsonParse : List Char → Option (Option (List Char)))
    (upstream : Except (List Char) UpstreamResponse) (event : NFEvent) :
    Except (List Char) NFResponse :=
  if event.httpMethod = "OPTIONS".data then .ok corsPreflightResponse
  else
    match extractTarget jsonParse event with
    | .error e => .error e
    | .ok none => .ok ⟨400, [], "Missing url parameter".data, false⟩
    | .ok (some target) =>
      if authorizedCheck apiKey event = false then
        .ok ⟨401, [], "Unauthorized: invalid proxy key".data, false⟩
      else
        match parseURL target with
        | none => .ok ⟨400, [], "Invalid target URL".data, false⟩
        | some tu =>
          if isBlockedHost (hostOfURL tu) then
            .ok ⟨403, [], "Forbidden host".data, false⟩
          else
            match upstream with
            | .error e => .error e
            | .ok res =>
              let outHeaders := buildOutHeaders res.headers
              let contentType := (lookupHeaderCI res.headers "content-type".data).getD []
              if isHtmlContentType contentType then
                let baseUrl := if res.url = [] then target else res.url
                let outDoc := res.doc.map (transformElem baseUrl)
                .ok ⟨res.status,
                  objectSet outHeaders "content-type".data "text/html; charset=utf-8".data,
                  serializeDoc outDoc, false⟩
              else
                .ok ⟨res.status,
                  (if contentType = [] then outHeaders
                   else objectSet outHeaders "content-type".data contentType),
                  base64Encode res.bytes, true⟩

/-- The exported handler (proxy.js lines 62 to 218): the try body with the
catch-all that converts any thrown error into a 500 response carrying the
permissive cross-origin header. -/
def handler (apiKey : Option (List Char))
    (jsonParse : List Char → Option (Option (List Char)))
    (upstream : Except (List Char) UpstreamResponse) (event : NFEvent) : NFResponse :=
  match handlerInner apiKey jsonParse upstream event with
  | .ok r => r
  | .error e =>
    ⟨500, [("access-control-allow-origin".data, "*".data)], "Proxy error: ".data ++ e, false⟩

/-! ### Lemmas about the percent-coding model -/

theorem hexVal_hexDigitChar : ∀ m, m < 16 → hexVal (hexDigitChar m) = some m := by decide

theorem uriUnreserved_facts (c : Char) (h : isUriUnreserved c = true) :
    33 ≤ c.toNat ∧ c.toNat ≤ 126 ∧ c.toNat ≠ 37 ∧ c.toNat ≠ 58 ∧ c.toNat ≠ 47 ∧
      c.toNat ≠ 63 ∧ c.toNat ≠ 35 ∧ c.toNat ≠ 59 := by
  simp [isUriUnreserved, isAsciiAlphaCh, isAsciiUpper, isAsciiLower, isAsciiDigitCh] at h
  omega

theorem char_toNat_lt (c : Char) : c.toNat < 1114112 ∧ ¬ (55296 ≤ c.toNat ∧ c.toNat ≤ 57343) := by
  have hv := c.valid
  simp only [UInt32.isValidChar, Nat.isValidChar] at hv
  have hvt : c.toNat = c.val.toNat := rfl
  omega

theorem pctDecodeTokens_pctByte (b : Nat) (hb : b < 256) (r : List Char) :
    pctDecodeTokens (pctByte b ++ r) =
      (pctDecodeTokens r).map (fun ts => Sum.inr b :: ts) := by
  simp only [pctByte, List.cons_append, List.nil_append]
  rw [pctDecodeTokens.eq_def]
  simp [hexVal_hexDigitChar (b / 16) (by omega), hexVal_hexDigitChar (b % 16) (by omega)]
  have e0 : (16 * (b / 16) + b % 16) = b := by omega
  simp [e0]

theorem pctDecodeTokens_encChar (c : Char) (r : List Char) :
    pctDecodeTokens (encChar c ++ r) =
      (pctDecodeTokens r).map (fun ts => encTokens c ++ ts) := by
  by_cases hu : isUriUnreserved c
  · have hf := uriUnreserved_facts c hu
    simp only [encChar, encTokens, hu, if_true, List.cons_append, List.nil_append]
    rw [pctDecodeTokens.eq_def]
    simp [show ¬ c.toNat = 37 by omega]
  · have hlt := char_toNat_lt c
    simp only [encChar, encTokens, hu, if_false, Bool.false_eq_true]
    by_cases h1 : c.toNat < 128
    · simp only [utf8Bytes, h1, if_true, List.flatMap_cons, List.flatMap_nil, List.append_nil,
        List.map_cons, List.map_nil]
      rw [pctDecodeTokens_pctByte _ (by omega)]
      rfl
    · by_cases h2 : c.toNat < 2048
      · simp only [utf8Bytes, h1, h2, if_true, if_false, List.flatMap_cons, List.flatMap_nil,
          List.append_nil, List.map_cons, List.map_nil, List.append_assoc]
        rw [pctDecodeTokens_pctByte _ (by omega), pctDecodeTokens_pctByte _ (by omega)]
        simp [Option.map_map]
        rfl
      · by_cases h3 : c.toNat < 65536
        · simp only [utf8Bytes, h1, h2, h3, if_true, if_false, List.flatMap_cons,
            List.flatMap_nil, List.append_nil, List.map_cons, List.map_nil, List.append_assoc]
          rw [pctDecodeTokens_pctByte _ (by omega), pctDecodeTokens_pctByte _ (by omega),
            pctDecodeTokens_pctByte _ (by omega)]
          simp [Option.map_map]
          rfl
        · simp only [utf8Bytes, h1, h2, h3, if_true, if_false, List.flatMap_cons,
            List.flatMap_nil, List.append_nil, List.map_cons, List.map_nil, List.append_assoc]
          rw [pctDecodeTokens_pctByte _ (by omega), pctDecodeTokens_pctByte _ (by omega),
            pctDecodeTokens_pctByte _ (by omega), pctDecodeTokens_pctByte _ (by omega)]
          simp [Option.map_map]
          rfl

theorem contSplit1_len (u : List (Sum Char Nat)) (q : Nat × List (Sum Char Nat))
    (hq : contSplit1 u = some q) : q.2.length < u.length := by
  rcases u with _ | ⟨t1, ts2⟩
  · simp [contSplit1] at hq
  · simp only [contSplit1] at hq
    cases hc : contRead t1 with
    | none => rw [hc] at hq; cases hq
    | some n1 => rw [hc] at hq; cases hq; simp

theorem contSplit2_len (u : List (Sum Char Nat)) (q : Nat × Nat × List (Sum Char Nat))
    (hq : contSplit2 u = some q) : q.2.2.length + 1 < u.length := by
  rcases u with _ | ⟨t1, _ | ⟨t2, ts2⟩⟩
  · simp [contSplit2] at hq
  · simp [contSplit2] at hq
  · simp only [contSplit2] at hq
    cases hc1 : contRead t1 with
    | none => rw [hc1] at hq; cases hq
    | some n1 =>
      cases hc2 : contRead t2 with
      | none => rw [hc1, hc2] at hq; cases hq
      | some n2 => rw [hc1, hc2] at hq; cases hq; simp

theorem contSplit3_len (u : List (Sum Char Nat)) (q : Nat × Nat × Nat × List (Sum Char Nat))
    (hq : contSplit3 u = some q) : q.2.2.2.length + 2 < u.length := by
  rcases u with _ | ⟨t1, _ | ⟨t2, _ | ⟨t3, ts2⟩⟩⟩
  · simp [contSplit3] at hq
  · simp [contSplit3] at hq
  · simp [contSplit3] at hq
  · simp only [contSplit3] at hq
    cases hc1 : contRead t1 with
    | none => rw [hc1] at hq; cases hq
    | some n1 =>
      cases hc2 : contRead t2 with
      | none => rw [hc1, hc2] at hq; cases hq
      | some n2 =>
        cases hc3 : contRead t3 with
        | none => rw [hc1, hc2, hc3] at hq; cases hq
        | some n3 => rw [hc1, hc2, hc3] at hq; cases hq; simp

theorem utf8ReadOne_len (u : List (Sum Char Nat)) (p : Char × List (Sum Char Nat))
    (hp : utf8ReadOne u = some p) : p.2.length < u.length := by
  rcases u with _ | ⟨t, ts⟩
  · simp [utf8ReadOne] at hp
  · rcases t with c | n0
    · simp only [utf8ReadOne] at hp
      cases hp
      simp
    · simp only [utf8ReadOne] at hp
      by_cases h1 : n0 < 128
      · rw [if_pos h1] at hp
        cases hp
        simp
      · rw [if_neg h1] at hp
        by_cases h2 : 194 ≤ n0 ∧ n0 < 224
        · rw [if_pos h2] at hp
          cases hcs : contSplit1 ts with
          | none => rw [hcs] at hp; cases hp
          | some q =>
            rw [hcs] at hp
            cases hp
            have := contSplit1_len ts q hcs
            simp
            omega
        · rw [if_neg h2] at hp
          by_cases h3 : 224 ≤ n0 ∧ n0 < 240
          · rw [if_pos h3] at hp
            cases hcs : contSplit2 ts with
            | none => rw [hcs] at hp; cases hp
            | some q =>
              rw [hcs] at hp
              simp only at hp
              split at hp
              · cases hp
                have := contSplit2_len ts q hcs
                simp
                omega
              · cases hp
          · rw [if_neg h3] at hp
            by_cases h4 : 240 ≤ n0 ∧ n0 < 245
            · rw [if_pos h4] at hp
              cases hcs : contSplit3 ts with
              | none => rw [hcs] at hp; cases hp
              | some q =>
                rw [hcs] at hp
                simp only at hp
                split at hp
                · cases hp
                  have := contSplit3_len ts q hcs
                  simp
                  omega
                · cases hp
            · rw [if_neg h4] at hp
              cases hp

theorem utf8AF_fuel : ∀ (f g : Nat) (ts : List (Sum Char Nat)),
    ts.length ≤ f → ts.length ≤ g → utf8AssembleF f ts = utf8AssembleF g ts
  | f, g, [], _, _ => by cases f <;> cases g <;> rfl
  | 0, _, t :: ts1, hf, _ => by simp at hf
  | _ + 1, 0, t :: ts1, _, hg => by simp at hg
  | f1 + 1, g1 + 1, t :: ts1, hf, hg => by
    simp only [List.length_cons] at hf hg
    show (match utf8ReadOne (t :: ts1) with
      | some p => (utf8AssembleF f1 p.2).map (fun l => p.1 :: l)
      | none => none) =
      (match utf8ReadOne (t :: ts1) with
      | some p => (utf8AssembleF g1 p.2).map (fun l => p.1 :: l)
      | none => none)
    cases hro : utf8ReadOne (t :: ts1) with
    | none => rfl
    | some p =>
      have hl := utf8ReadOne_len _ p hro
      simp only [List.length_cons] at hl
      show (utf8AssembleF f1 p.2).map (fun l => p.1 :: l) =
        (utf8AssembleF g1 p.2).map (fun l => p.1 :: l)
      rw [utf8AF_fuel f1 g1 p.2 (by omega) (by omega)]

theorem encTokens_ne_nil (c : Char) : encTokens c ≠ [] := by
  by_cases hu : isUriUnreserved c
  · simp [encTokens, hu]
  · have hlt := char_toNat_lt c
    simp only [encTokens, hu, if_false, Bool.false_eq_true]
    by_cases h1 : c.toNat < 128
    · simp [utf8Bytes, h1]
    · by_cases h2 : c.toNat < 2048
      · simp [utf8Bytes, h1, h2]
      · by_cases h3 : c.toNat < 65536
        · simp [utf8Bytes, h1, h2, h3]
        · simp [utf8Bytes, h1, h2, h3]

theorem utf8ReadOne_encTokens (c : Char) (ts : List (Sum Char Nat)) :
    utf8ReadOne (encTokens c ++ ts) = some (c, ts) := by
  by_cases hu : isUriUnreserved c
  · simp [encTokens, hu, utf8ReadOne]
  · have hlt := char_toNat_lt c
    simp only [encTokens, hu, if_false, Bool.false_eq_true]
    by_cases h1 : c.toNat < 128
    · simp only [utf8Bytes, h1, if_true, List.map_cons, List.map_nil, List.cons_append,
        List.nil_append]
      simp only [utf8ReadOne]
      rw [if_pos h1, Char.ofNat_toNat]
    · by_cases h2 : c.toNat < 2048
      · simp only [utf8Bytes, h1, h2, if_true, if_false, List.map_cons, List.map_nil,
          List.cons_append, List.nil_append]
        simp only [utf8ReadOne]
        rw [if_neg (by omega), if_pos (by omega)]
        have hs1 : contSplit1 (Sum.inr (128 + c.toNat % 64) :: ts) =
            some (128 + c.toNat % 64, ts) := by
          simp only [contSplit1, contRead]
          rw [if_pos (by omega)]
        rw [hs1]
        have e0 : (192 + c.toNat / 64 - 192) * 64 + (128 + c.toNat % 64 - 128) = c.toNat := by
          omega
        simp only [e0, Char.ofNat_toNat]
      · by_cases h3 : c.toNat < 65536
        · simp only [utf8Bytes, h1, h2, h3, if_true, if_false, List.map_cons, List.map_nil,
            List.cons_append, List.nil_append]
          simp only [utf8ReadOne]
          rw [if_neg (by omega), if_neg (by omega), if_pos (by omega)]
          have hs2 : contSplit2 (Sum.inr (128 + c.toNat / 64 % 64) :: Sum.inr (128 + c.toNat % 64) :: ts) =
              some (128 + c.toNat / 64 % 64, 128 + c.toNat % 64, ts) := by
            simp only [contSplit2, contRead]
            rw [if_pos (by omega), if_pos (by omega)]
          rw [hs2]
          have e0 : (224 + c.toNat / 4096 - 224) * 4096 + (128 + c.toNat / 64 % 64 - 128) * 64 +
              (128 + c.toNat % 64 - 128) = c.toNat := by omega
          simp only [e0]
          rw [if_pos (by omega), Char.ofNat_toNat]
        · simp only [utf8Bytes, h1, h2, h3, if_true, if_false, List.map_cons, List.map_nil,
            List.cons_append, List.nil_append]
          simp only [utf8ReadOne]
          rw [if_neg (by omega), if_neg (by omega), if_neg (by omega), if_pos (by omega)]
          have hs3 : contSplit3 (Sum.inr (128 + c.toNat / 4096 % 64) :: Sum.inr (128 + c.toNat / 64 % 64) ::
              Sum.inr (128 + c.toNat % 64) :: ts) =
              some (128 + c.toNat / 4096 % 64, 128 + c.toNat / 64 % 64, 128 + c.toNat % 64, ts) := by
            simp only [contSplit3, contRead]
            rw [if_pos (by omega), if_pos (by omega), if_pos (by omega)]
          rw [hs3]
          have e0 : (240 + c.toNat / 262144 - 240) * 262144 + (128 + c.toNat / 4096 % 64 - 128) * 4096 +
              (128 + c.toNat / 64 % 64 - 128) * 64 + (128 + c.toNat % 64 - 128) = c.toNat := by omega
          simp only [e0]
          rw [if_pos (by omega), Char.ofNat_toNat]

theorem utf8Assemble_encTokens (c : Char) (ts : List (Sum Char Nat)) :
    utf8Assemble (encTokens c ++ ts) = (utf8Assemble ts).map (fun l => c :: l) := by
  rcases hE : encTokens c with _ | ⟨t0, e0⟩
  · exact absurd hE (encTokens_ne_nil c)
  · have hro : utf8ReadOne (t0 :: (e0 ++ ts)) = some (c, ts) := by
      have := utf8ReadOne_encTokens c ts
      rw [hE] at this
      simpa using this
    show utf8AssembleF ((t0 :: e0 ++ ts).length) (t0 :: e0 ++ ts) = _
    simp only [List.cons_append, List.length_cons]
    show (match utf8ReadOne (t0 :: (e0 ++ ts)) with
      | some p => (utf8AssembleF ((e0 ++ ts).length) p.2).map (fun l => p.1 :: l)
      | none => none) = _
    rw [hro]
    simp only
    rw [utf8AF_fuel ((e0 ++ ts).length) ts.length ts (by simp) (by omega)]
    rfl

theorem decodeURIComponent_enc_append (s t : List Char) :
    decodeURIComponent (encodeURIComponent s ++ t) =
      (decodeURIComponent t).map (fun l => s ++ l) := by
  induction s with
  | nil => simp [encodeURIComponent]
  | cons c cs ih =>
    simp only [encodeURIComponent, List.flatMap_cons, List.append_assoc] at ih ⊢
    simp only [decodeURIComponent] at ih ⊢
    rw [pctDecodeTokens_encChar]
    rcases hpt : pctDecodeTokens (cs.flatMap encChar ++ t) with _ | ts2
    · rw [hpt] at ih
      simp only [Option.map_none', Option.none_bind] at ih ⊢
      rcases hd : pctDecodeTokens t with _ | tt
      · simp
      · rw [hd] at ih
        simp only [Option.some_bind] at ih
        rcases ha : utf8Assemble tt with _ | l
        · simp [ha]
        · rw [ha] at ih
          simp at ih
    · rw [hpt] at ih
      simp only [Option.map_some', Option.some_bind] at ih ⊢
      rw [utf8Assemble_encTokens, ih]
      simp [Option.map_map]
      rfl

theorem decode_encode (s : List Char) :
    decodeURIComponent (encodeURIComponent s) = some s := by
  have h := decodeURIComponent_enc_append s []
  simpa [decodeURIComponent, pctDecodeTokens, utf8Assemble, utf8AssembleF] using h


/-! ### Base64 roundtrip -/

theorem b64Val_b64Ch : ∀ n, n < 64 → b64Val (b64Ch n) = some n := by decide

theorem b64Ch_ne_eq : ∀ n, n < 64 → b64Ch n ≠ '=' := by decide

theorem base64_decode_encode : ∀ (bs : List Nat), (∀ b ∈ bs, b < 256) →
    base64Decode (base64Encode bs) = some bs
  | [], _ => by rfl
  | [a], h => by
    have ha : a < 256 := h a (by simp)
    show base64Decode [b64Ch (a / 4), b64Ch (a % 4 * 16), '=', '='] = some [a]
    rw [base64Decode]
    rw [if_pos ⟨rfl, rfl, rfl⟩]
    rw [b64Val_b64Ch _ (by omega), b64Val_b64Ch _ (by omega)]
    show (if (a % 4 * 16) % 16 = 0 then some [a / 4 * 4 + a % 4 * 16 / 16] else none) = some [a]
    rw [if_pos (by omega)]
    have e0 : a / 4 * 4 + a % 4 * 16 / 16 = a := by omega
    rw [e0]
  | [a, b], h => by
    have ha : a < 256 := h a (by simp)
    have hb : b < 256 := h b (by simp)
    show base64Decode [b64Ch (a / 4), b64Ch (a % 4 * 16 + b / 16), b64Ch (b % 16 * 4), '='] =
      some [a, b]
    rw [base64Decode]
    rw [if_neg (by
      intro hcon
      exact b64Ch_ne_eq (b % 16 * 4) (by omega) hcon.2.1)]
    rw [if_pos ⟨rfl, rfl⟩]
    rw [b64Val_b64Ch _ (by omega), b64Val_b64Ch _ (by omega), b64Val_b64Ch _ (by omega)]
    show (if (b % 16 * 4) % 4 = 0 then
      some [a / 4 * 4 + (a % 4 * 16 + b / 16) / 16,
        (a % 4 * 16 + b / 16) % 16 * 16 + b % 16 * 4 / 4] else none) = some [a, b]
    rw [if_pos (by omega)]
    have e0 : a / 4 * 4 + (a % 4 * 16 + b / 16) / 16 = a := by omega
    have e1 : (a % 4 * 16 + b / 16) % 16 * 16 + b % 16 * 4 / 4 = b := by omega
    rw [e0, e1]
  | a :: b :: c :: d :: rest0, h => by
    have ha : a < 256 := h a (by simp)
    have hb : b < 256 := h b (by simp)
    have hc : c < 256 := h c (by simp)
    have hrest : ∀ x ∈ d :: rest0, x < 256 := fun x hx => h x (by simp at hx ⊢; tauto)
    show base64Decode (b64Ch (a / 4) :: b64Ch (a % 4 * 16 + b / 16) :: b64Ch (b % 16 * 4 + c / 64) ::
      b64Ch (c % 64) :: base64Encode (d :: rest0)) = some (a :: b :: c :: d :: rest0)
    rw [base64Decode]
    rw [if_neg (by
      intro hcon
      exact b64Ch_ne_eq (c % 64) (by omega) hcon.2.2)]
    rw [if_neg (by
      intro hcon
      exact b64Ch_ne_eq (c % 64) (by omega) hcon.2)]
    rw [b64Val_b64Ch _ (by omega), b64Val_b64Ch _ (by omega), b64Val_b64Ch _ (by omega),
      b64Val_b64Ch _ (by omega)]
    show (base64Decode (base64Encode (d :: rest0))).map
      (fun l => (a / 4 * 4 + (a % 4 * 16 + b / 16) / 16) ::
        ((a % 4 * 16 + b / 16) % 16 * 16 + (b % 16 * 4 + c / 64) / 4) ::
        ((b % 16 * 4 + c / 64) % 4 * 64 + c % 64) :: l) = some (a :: b :: c :: d :: rest0)
    rw [base64_decode_encode (d :: rest0) hrest]
    have e0 : a / 4 * 4 + (a % 4 * 16 + b / 16) / 16 = a := by omega
    have e1 : (a % 4 * 16 + b / 16) % 16 * 16 + (b % 16 * 4 + c / 64) / 4 = b := by omega
    have e2 : (b % 16 * 4 + c / 64) % 4 * 64 + c % 64 = c := by omega
    rw [e0, e1, e2]
    rfl
  | [a, b, c], h => by
    have ha : a < 256 := h a (by simp)
    have hb : b < 256 := h b (by simp)
    have hc : c < 256 := h c (by simp)
    show base64Decode (b64Ch (a / 4) :: b64Ch (a % 4 * 16 + b / 16) :: b64Ch (b % 16 * 4 + c / 64) ::
      b64Ch (c % 64) :: base64Encode []) = some [a, b, c]
    rw [base64Decode]
    rw [if_neg (by
      intro hcon
      exact b64Ch_ne_eq (c % 64) (by omega) hcon.2.2)]
    rw [if_neg (by
      intro hcon
      exact b64Ch_ne_eq (c % 64) (by omega) hcon.2)]
    rw [b64Val_b64Ch _ (by omega), b64Val_b64Ch _ (by omega), b64Val_b64Ch _ (by omega),
      b64Val_b64Ch _ (by omega)]
    show (base64Decode (base64Encode [])).map
      (fun l => (a / 4 * 4 + (a % 4 * 16 + b / 16) / 16) ::
        ((a % 4 * 16 + b / 16) % 16 * 16 + (b % 16 * 4 + c / 64) / 4) ::
        ((b % 16 * 4 + c / 64) % 4 * 64 + c % 64) :: l) = some [a, b, c]
    have e0 : a / 4 * 4 + (a % 4 * 16 + b / 16) / 16 = a := by omega
    have e1 : (a % 4 * 16 + b / 16) % 16 * 16 + (b % 16 * 4 + c / 64) / 4 = b := by omega
    have e2 : (b % 16 * 4 + c / 64) % 4 * 64 + c % 64 = c := by omega
    rw [e0, e1, e2]
    rfl
  termination_by bs => bs.length


/-- C2: the Host Guard blocks localhost, 127.0.0.1, 10.0.0.5, 192.168.1.1,
172.16.0.1, 172.31.255.255, foo.local, 0.0.0.0 and the empty hostname, and
allows example.com, 8.8.8.8, 172.32.0.1 and 172.15.0.1, matching the
pattern list. -/
theorem C2_host_guard :
    isBlockedHost "localhost".data = true ∧
    isBlockedHost "127.0.0.1".data = true ∧
    isBlockedHost "10.0.0.5".data = true ∧
    isBlockedHost "192.168.1.1".data = true ∧
    isBlockedHost "172.16.0.1".data = true ∧
    isBlockedHost "172.31.255.255".data = true ∧
    isBlockedHost "foo.local".data = true ∧
    isBlockedHost "0.0.0.0".data = true ∧
    isBlockedHost [] = true ∧
    isBlockedHost "example.com".data = false ∧
    isBlockedHost "8.8.8.8".data = false ∧
    isBlockedHost "172.32.0.1".data = false ∧
    isBlockedHost "172.15.0.1".data = false := by decide

/-- C7: the rewriter resolves ../img/a.png against
https://example.com/dir/page.html to https://example.com/img/a.png and
embeds exactly that absolute target in the url parameter. -/
theorem C7_relative_resolution :
    maybeRewriteUrl "../img/a.png".data "https://example.com/dir/page.html".data =
      makeProxyUrl "https://example.com/img/a.png".data ∧
    embeddedParam (maybeRewriteUrl "../img/a.png".data "https://example.com/dir/page.html".data) =
      some (encodeURIComponent "https://example.com/img/a.png".data) ∧
    decodeURIComponent (encodeURIComponent "https://example.com/img/a.png".data) =
      some "https://example.com/img/a.png".data := by decide


/-! ### Character-class and list-splitting lemmas for the rewriter analysis -/

theorem hexDigitChar_unreserved : ∀ m, isUriUnreserved (hexDigitChar m) = true := by
  intro m
  unfold hexDigitChar
  split <;> decide

/-- Characters of an encodeURIComponent output are unreserved or the
percent sign. -/
theorem encodeURIComponent_chars (u : List Char) :
    ∀ c ∈ encodeURIComponent u, isUriUnreserved c = true ∨ c.toNat = 37 := by
  intro c hc
  simp only [encodeURIComponent, List.mem_flatMap] at hc
  obtain ⟨x, hx, hcx⟩ := hc
  simp only [encChar] at hcx
  by_cases hu : isUriUnreserved x
  · rw [if_pos hu] at hcx
    simp only [List.mem_singleton] at hcx
    subst hcx
    exact Or.inl hu
  · rw [if_neg hu] at hcx
    simp only [List.mem_flatMap] at hcx
    obtain ⟨b, hb, hcb⟩ := hcx
    simp only [pctByte, List.mem_cons, List.not_mem_nil, or_false] at hcb
    rcases hcb with h1 | h1 | h1
    · subst h1
      exact Or.inr rfl
    · subst h1
      exact Or.inl (hexDigitChar_unreserved _)
    · subst h1
      exact Or.inl (hexDigitChar_unreserved _)

/-- Encoded output characters are printable and none of the URL delimiter
characters. -/
theorem encodeURIComponent_chars_facts (u : List Char) :
    ∀ c ∈ encodeURIComponent u, 32 < c.toNat ∧ c.toNat ≠ 58 ∧ c.toNat ≠ 47 ∧
      c.toNat ≠ 63 ∧ c.toNat ≠ 35 := by
  intro c hc
  rcases encodeURIComponent_chars u c hc with h | h
  · have := uriUnreserved_facts c h
    omega
  · omega

theorem encodeURIComponent_length (u : List Char) :
    u.length ≤ (encodeURIComponent u).length := by
  induction u with
  | nil => simp [encodeURIComponent]
  | cons c cs ih =>
    simp only [encodeURIComponent, List.flatMap_cons, List.length_append, List.length_cons]
    have h1 : 1 ≤ (encChar c).length := by
      simp only [encChar]
      by_cases hu : isUriUnreserved c
      · simp [hu]
      · rw [if_neg hu]
        have hlt := char_toNat_lt c
        by_cases h1 : c.toNat < 128
        · simp [utf8Bytes, h1, pctByte]
        · by_cases h2 : c.toNat < 2048
          · simp [utf8Bytes, h1, h2, pctByte]
          · by_cases h3 : c.toNat < 65536
            · simp [utf8Bytes, h1, h2, h3, pctByte]
            · simp [utf8Bytes, h1, h2, h3, pctByte]
    simp only [encodeURIComponent] at ih
    omega

theorem dropWhile_eq_self_of (p : Char → Bool) (l : List Char)
    (h : ∀ c ∈ l, p c = false) : l.dropWhile p = l := by
  cases l with
  | nil => rfl
  | cons a as =>
    rw [List.dropWhile_cons, if_neg (by simp [h a (by simp)])]

theorem trimJs_eq_self (l : List Char) (h : ∀ c ∈ l, 32 < c.toNat) : trimJs l = l := by
  have hw : ∀ c ∈ l, isJsWhitespace c = false := by
    intro c hc
    have := h c hc
    simp [isJsWhitespace]
    omega
  unfold trimJs
  rw [dropWhile_eq_self_of _ _ hw,
    dropWhile_eq_self_of _ _ (fun c hc => hw c (List.mem_reverse.mp hc)), List.reverse_reverse]

theorem stripInput_eq_self (l : List Char) (h : ∀ c ∈ l, 32 < c.toNat) : stripInput l = l := by
  have hw : ∀ c ∈ l, isC0OrSpace c = false := by
    intro c hc
    have := h c hc
    simp [isC0OrSpace]
    omega
  unfold stripInput
  rw [dropWhile_eq_self_of _ _ hw,
    dropWhile_eq_self_of _ _ (fun c hc => hw c (List.mem_reverse.mp hc)), List.reverse_reverse]
  rw [List.filter_eq_self.mpr]
  intro a ha
  have := h a ha
  simp [isTabOrNewline]
  omega

theorem breakAt_none (p : Char → Bool) (l : List Char) (h : ∀ c ∈ l, p c = false) :
    breakAt p l = (l, []) := by
  induction l with
  | nil => rfl
  | cons a as ih =>
    rw [breakAt, if_neg (by simp [h a (by simp)])]
    rw [ih (fun c hc => h c (by simp [hc]))]

theorem breakAt_append_first (p : Char → Bool) (l1 : List Char) (x : Char) (l2 : List Char)
    (h1 : ∀ c ∈ l1, p c = false) (hx : p x = true) :
    breakAt p (l1 ++ x :: l2) = (l1, x :: l2) := by
  induction l1 with
  | nil =>
    simp only [List.nil_append]
    rw [breakAt, if_pos hx]
  | cons a as ih =>
    simp only [List.cons_append]
    rw [breakAt, if_neg (by simp [h1 a (by simp)])]
    rw [ih (fun c hc => h1 c (by simp [hc]))]


/-! ### Symbolic resolution of a proxy-relative link against a base -/

theorem proxyStem_decomp :
    proxyStem = "/.netlify/functions/proxy".data ++ '?' :: "url=".data := by decide

theorem proxyStem_chars : ∀ c ∈ proxyStem, 32 < c.toNat ∧ c.toNat ≠ 58 ∧ c.toNat ≠ 35 := by
  decide

/-- All characters of a proxy link are printable, so the URL input
preprocessing and the trim leave it unchanged. -/
theorem proxyLink_chars (E : List Char)
    (hE : ∀ c ∈ E, isUriUnreserved c = true ∨ c.toNat = 37) :
    ∀ c ∈ proxyStem ++ E, 32 < c.toNat := by
  intro c hc
  rcases List.mem_append.mp hc with h | h
  · exact (proxyStem_chars c h).1
  · rcases hE c h with h1 | h1
    · have := uriUnreserved_facts c h1
      omega
    · omega

theorem splitScheme_proxyLink (E : List Char)
    (hE : ∀ c ∈ E, isUriUnreserved c = true ∨ c.toNat = 37) :
    splitScheme (proxyStem ++ E) = none := by
  have hb : breakAt (fun c => c.toNat = 58) (proxyStem ++ E) = (proxyStem ++ E, []) := by
    apply breakAt_none
    intro c hc
    rcases List.mem_append.mp hc with h | h
    · simp [(proxyStem_chars c h).2.1]
    · rcases hE c h with h1 | h1
      · have := uriUnreserved_facts c h1
        simp
        omega
      · simp
        omega
  simp only [splitScheme, hb]

theorem splitPathQueryFrag_proxyLink (E : List Char)
    (hE : ∀ c ∈ E, isUriUnreserved c = true ∨ c.toNat = 37) :
    splitPathQueryFrag (proxyStem ++ E) =
      ("/.netlify/functions/proxy".data, some ("url=".data ++ E), none) := by
  have hEf : ∀ c ∈ E, c.toNat ≠ 63 ∧ c.toNat ≠ 35 := by
    intro c hc
    rcases hE c hc with h1 | h1
    · have := uriUnreserved_facts c h1
      omega
    · omega
  have hshape : proxyStem ++ E = "/.netlify/functions/proxy".data ++ '?' :: ("url=".data ++ E) := by
    rw [proxyStem_decomp]
    simp [List.append_assoc]
  have hnohash : ∀ c ∈ proxyStem ++ E, (decide (c.toNat = 35)) = false := by
    intro c hc
    rcases List.mem_append.mp hc with h | h
    · simp [(proxyStem_chars c h).2.2]
    · simp [(hEf c h).2]
  have hpath63 : ∀ c ∈ "/.netlify/functions/proxy".data, (decide (c.toNat = 63)) = false := by
    decide
  unfold splitPathQueryFrag
  rw [breakAt_none _ _ hnohash]
  simp only
  rw [hshape, breakAt_append_first _ _ _ _ hpath63 (by decide)]


theorem procSegs_proxyPath :
    procSegs [] (pathRawSegs "/.netlify/functions/proxy".data) =
      [".netlify".data, "functions".data, "proxy".data] := by decide

theorem resolveRel_proxyLink (sch host : List Char) (port : Option Nat)
    (segs : List (List Char)) (q f : Option (List Char)) (E : List Char)
    (hE : ∀ c ∈ E, isUriUnreserved c = true ∨ c.toNat = 37) :
    resolveRel (.hier sch host port segs q f) (proxyStem ++ E) =
      some (.hier sch host port [".netlify".data, "functions".data, "proxy".data]
        (some ("url=".data ++ E)) none) := by
  have hshape : proxyStem ++ E = '/' :: '.' :: ("netlify/functions/proxy?url=".data ++ E) := by
    rw [show proxyStem = '/' :: '.' :: "netlify/functions/proxy?url=".data from by decide]
    simp
  rw [hshape]
  unfold resolveRel
  simp only [Char.toNat]
  rw [if_pos (by decide)]
  rw [if_neg (by decide)]
  unfold rootRelParse
  rw [← hshape, splitPathQueryFrag_proxyLink E hE]
  simp only [Option.some.injEq, URLModel.hier.injEq, true_and, and_true, eq_self_iff_true]
  decide

theorem parseWithBase_proxyLink (sch host : List Char) (port : Option Nat)
    (segs : List (List Char)) (q f : Option (List Char)) (E : List Char)
    (hE : ∀ c ∈ E, isUriUnreserved c = true ∨ c.toNat = 37) :
    parseWithBase (proxyStem ++ E) (.hier sch host port segs q f) =
      some (.hier sch host port [".netlify".data, "functions".data, "proxy".data]
        (some ("url=".data ++ E)) none) := by
  unfold parseWithBase
  simp only [stripInput_eq_self _ (proxyLink_chars E hE), splitScheme_proxyLink E hE]
  exact resolveRel_proxyLink sch host port segs q f E hE

theorem hrefOf_proxyResolved (sch host : List Char) (port : Option Nat) (E : List Char) :
    hrefOf (.hier sch host port [".netlify".data, "functions".data, "proxy".data]
        (some ("url=".data ++ E)) none) =
      originOf (.hier sch host port [] none none) ++ (proxyStem ++ E) := by
  simp only [hrefOf]
  rw [show ('/' :: List.intercalate ['/']
      [".netlify".data, "functions".data, "proxy".data]) =
    "/.netlify/functions/proxy".data from by decide]
  rw [proxyStem_decomp]
  simp only [originOf, List.append_assoc, List.append_nil, List.cons_append, List.nil_append]


/-! ### Rewriter unfolding lemmas -/

theorem startsWithL_self_append : ∀ (p t : List Char), startsWithL p (p ++ t) = true := by
  intro p
  induction p with
  | nil => intro t; rfl
  | cons a as ih =>
    intro t
    simp only [List.cons_append, startsWithL, beq_self_eq_true, Bool.true_and]
    exact ih t

theorem embeddedParam_makeProxyUrl (u : List Char) :
    embeddedParam (makeProxyUrl u) = some (encodeURIComponent u) := by
  unfold embeddedParam makeProxyUrl
  rw [if_pos (startsWithL_self_append _ _)]
  congr 1

theorem makeProxyUrl_ne_nil (u : List Char) : makeProxyUrl u ≠ [] := by
  unfold makeProxyUrl
  intro h
  rcases List.append_eq_nil.mp h with ⟨h1, _⟩
  exact absurd h1 (by decide)

theorem nonNavigableVal_proxyLink (E : List Char)
    (hE : ∀ c ∈ E, isUriUnreserved c = true ∨ c.toNat = 37) :
    nonNavigableVal (proxyStem ++ E) = false := by
  unfold nonNavigableVal
  rw [trimJs_eq_self _ (proxyLink_chars E hE)]
  have hhead : lowerStr (proxyStem ++ E) =
      '/' :: lowerStr (".netlify/functions/proxy?url=".data ++ E) := by
    rw [show proxyStem = '/' :: ".netlify/functions/proxy?url=".data from by decide]
    simp only [List.cons_append, lowerStr, List.map_cons]
    rw [show lowerCh '/' = '/' from by decide]
  rw [hhead]
  rw [show "data:".data = 'd' :: "ata:".data from by decide,
      show "javascript:".data = 'j' :: "avascript:".data from by decide,
      show "mailto:".data = 'm' :: "ailto:".data from by decide,
      show "#".data = '#' :: ([] : List Char) from by decide]
  simp [startsWithL]

theorem shouldRewriteAttr_proxyLink (E : List Char)
    (hE : ∀ c ∈ E, isUriUnreserved c = true ∨ c.toNat = 37) :
    shouldRewriteAttr (proxyStem ++ E) = true := by
  unfold shouldRewriteAttr
  rw [if_neg (by
    intro h
    rcases List.append_eq_nil.mp h with ⟨h1, _⟩
    exact absurd h1 (by decide))]
  rw [nonNavigableVal_proxyLink E hE]
  rfl

theorem maybeRewriteUrl_rewrite (v b u : List Char) (hv : v ≠ [])
    (hs : shouldRewriteAttr v = true) (hr : resolveURL v b = some u) :
    maybeRewriteUrl v b = makeProxyUrl u := by
  unfold maybeRewriteUrl
  rw [if_neg hv, if_neg (by simp [hs]), hr]

theorem shouldRewriteAttr_nil : shouldRewriteAttr [] = false := rfl

/-- A proxy link resolved against a hierarchical base is the base origin
followed by the link itself. -/
theorem resolveURL_proxyLink (b : List Char) (sch host : List Char) (port : Option Nat)
    (segs : List (List Char)) (q f : Option (List Char)) (u : List Char)
    (hb : parseURL b = some (.hier sch host port segs q f)) :
    resolveURL (makeProxyUrl u) b =
      some (originOf (.hier sch host port [] none none) ++ makeProxyUrl u) := by
  unfold resolveURL
  rw [hb]
  unfold makeProxyUrl
  show Option.map hrefOf (parseWithBase (proxyStem ++ encodeURIComponent u)
    (URLModel.hier sch host port segs q f)) = _
  rw [parseWithBase_proxyLink sch host port segs q f _ (encodeURIComponent_chars u)]
  simp only [Option.map_some']
  rw [hrefOf_proxyResolved]


/-! ### Claims C4, C5, C6 -/

/-- The three fail-open conditions each leave the value unchanged. -/
theorem maybeRewriteUrl_unchanged_of (v b : List Char)
    (h : v = [] ∨ nonNavigableVal v = true ∨ resolveURL v b = none) :
    maybeRewriteUrl v b = v := by
  rcases h with h | h | h
  · rw [h]
    rfl
  · unfold maybeRewriteUrl
    by_cases hv : v = []
    · rw [if_pos hv]
    · have hs : shouldRewriteAttr v = false := by
        unfold shouldRewriteAttr
        rw [if_neg hv, h]
        rfl
      rw [if_neg hv, if_pos hs]
  · unfold maybeRewriteUrl
    by_cases hv : v = []
    · rw [if_pos hv]
    · rw [if_neg hv]
      by_cases hs : shouldRewriteAttr v = false
      · rw [if_pos hs]
      · rw [if_neg hs, h]

/-- C6: maybeRewriteUrl returns the attribute value unchanged in exactly
these cases: the value is empty, its trimmed lowercased form starts with
data: or javascript: or mailto: or a hash, or its resolution against the
base fails. -/
theorem C6_fail_open_exact (v b : List Char) :
    maybeRewriteUrl v b = v ↔
      (v = [] ∨ nonNavigableVal v = true ∨ resolveURL v b = none) := by
  constructor
  · intro h
    by_cases hv : v = []
    · exact Or.inl hv
    by_cases hnn : nonNavigableVal v = true
    · exact Or.inr (Or.inl hnn)
    rcases hr : resolveURL v b with _ | u
    · exact Or.inr (Or.inr rfl)
    exfalso
    have hs : shouldRewriteAttr v = true := by
      unfold shouldRewriteAttr
      rw [if_neg hv]
      simp [hnn]
    have hmk : makeProxyUrl u = v := by
      rw [← maybeRewriteUrl_rewrite v b u hv hs hr, h]
    rw [← hmk] at hr
    rcases hb : parseURL b with _ | bRec
    · have hnone : resolveURL (makeProxyUrl u) b = none := by
        unfold resolveURL
        rw [hb]
      rw [hnone] at hr
      cases hr
    rcases bRec with ⟨sch, host, port, segs, q, f⟩ | ⟨sch, rest⟩
    · rw [resolveURL_proxyLink b sch host port segs q f u hb] at hr
      have heq := Option.some.inj hr
      have hl := congrArg List.length heq
      simp only [List.length_append] at hl
      have hge := encodeURIComponent_length u
      have hstem : (0 : Nat) < proxyStem.length := by decide
      simp only [makeProxyUrl, List.length_append] at hl
      omega
    · have hnone : resolveURL (makeProxyUrl u) b = none := by
        unfold resolveURL
        rw [hb]
        show Option.map hrefOf (parseWithBase (makeProxyUrl u) (.other sch rest)) = none
        unfold makeProxyUrl parseWithBase
        simp only [stripInput_eq_self _ (proxyLink_chars _ (encodeURIComponent_chars u)),
          splitScheme_proxyLink _ (encodeURIComponent_chars u)]
        simp [resolveRel]
      rw [hnone] at hr
      cases hr
  · exact maybeRewriteUrl_unchanged_of v b

/-- C4 fails as stated: https://example.com is a syntactically valid
absolute URL, but the embedded parameter of its rewrite against the base
https://example.com/ decodes to the normalized form https://example.com/
with a trailing slash, not to the input itself. -/
theorem C4_counterexample :
    (parseURL "https://example.com".data).isSome = true ∧
    decodeURIComponent ((embeddedParam
        (maybeRewriteUrl "https://example.com".data "https://example.com/".data)).getD []) ≠
      some "https://example.com".data ∧
    decodeURIComponent ((embeddedParam
        (maybeRewriteUrl "https://example.com".data "https://example.com/".data)).getD []) =
      some "https://example.com/".data := by decide

/-- C4 amended: for a parseable base and an attribute value the rewriter
rewrites, the embedded url parameter decodes to the normalized
serialization of the value as resolved by the URL parser, equal to the
value itself exactly when the value is already in normalized form. -/
theorem C4_roundtrip_normalized (u b : List Char) (bRec uRec : URLModel)
    (hb : parseURL b = some bRec) (hs : shouldRewriteAttr u = true)
    (hu : parseWithBase u bRec = some uRec) :
    embeddedParam (maybeRewriteUrl u b) = some (encodeURIComponent (hrefOf uRec)) ∧
    decodeURIComponent (encodeURIComponent (hrefOf uRec)) = some (hrefOf uRec) := by
  have hv : u ≠ [] := by
    intro he
    rw [he, shouldRewriteAttr_nil] at hs
    cases hs
  have hr : resolveURL u b = some (hrefOf uRec) := by
    unfold resolveURL
    rw [hb]
    show Option.map hrefOf (parseWithBase u bRec) = _
    rw [hu]
    rfl
  rw [maybeRewriteUrl_rewrite u b _ hv hs hr]
  exact ⟨embeddedParam_makeProxyUrl _, decode_encode _⟩

/-- Witness for the amended C4 at a normalized input, where the decoded
parameter equals the input itself. -/
theorem C4_roundtrip_normalized_witness :
    parseURL "https://example.com/".data =
      some (.hier "https".data "example.com".data none [[]] none none) ∧
    shouldRewriteAttr "https://other.org/x".data = true ∧
    parseWithBase "https://other.org/x".data
        (.hier "https".data "example.com".data none [[]] none none) =
      some (.hier "https".data "other.org".data none [['x']] none none) ∧
    hrefOf (.hier "https".data "other.org".data none [['x']] none none) =
      "https://other.org/x".data ∧
    (embeddedParam (maybeRewriteUrl "https://other.org/x".data "https://example.com/".data) =
      some (encodeURIComponent (hrefOf
        (.hier "https".data "other.org".data none [['x']] none none))) ∧
    decodeURIComponent (encodeURIComponent (hrefOf
        (.hier "https".data "other.org".data none [['x']] none none))) =
      some (hrefOf (.hier "https".data "other.org".data none [['x']] none none))) :=
  ⟨by decide, by decide, by decide, by decide,
    C4_roundtrip_normalized "https://other.org/x".data "https://example.com/".data
      (.hier "https".data "example.com".data none [[]] none none)
      (.hier "https".data "other.org".data none [['x']] none none)
      (by decide) (by decide) (by decide)⟩

/-- C5 fails as stated: rewriting the proxy link produced for /about
against https://example.com/ a second time yields a link whose embedded
parameter decodes to the proxied form of the first link, not to the same
absolute target https://example.com/about. -/
theorem C5_counterexample :
    decodeURIComponent ((embeddedParam
        (maybeRewriteUrl "/about".data "https://example.com/".data)).getD []) =
      some "https://example.com/about".data ∧
    decodeURIComponent ((embeddedParam
        (maybeRewriteUrl (maybeRewriteUrl "/about".data "https://example.com/".data)
          "https://example.com/".data)).getD []) ≠
      some "https://example.com/about".data := by decide

/-- C5 amended: a second rewrite wraps the first proxy link again; its
embedded parameter decodes to the base origin followed by the first link,
and only the inner parameter still decodes to the original absolute
target. -/
theorem C5_double_rewrite (v b : List Char) (sch host : List Char) (port : Option Nat)
    (segs : List (List Char)) (q f : Option (List Char)) (u : List Char)
    (hb : parseURL b = some (.hier sch host port segs q f))
    (hv : v ≠ []) (hs : shouldRewriteAttr v = true) (hr : resolveURL v b = some u) :
    embeddedParam (maybeRewriteUrl v b) = some (encodeURIComponent u) ∧
    decodeURIComponent (encodeURIComponent u) = some u ∧
    maybeRewriteUrl (maybeRewriteUrl v b) b =
      makeProxyUrl (originOf (.hier sch host port [] none none) ++ maybeRewriteUrl v b) ∧
    embeddedParam (maybeRewriteUrl (maybeRewriteUrl v b) b) =
      some (encodeURIComponent
        (originOf (.hier sch host port [] none none) ++ maybeRewriteUrl v b)) ∧
    decodeURIComponent (encodeURIComponent
        (originOf (.hier sch host port [] none none) ++ maybeRewriteUrl v b)) =
      some (originOf (.hier sch host port [] none none) ++ maybeRewriteUrl v b) := by
  have h1 : maybeRewriteUrl v b = makeProxyUrl u := maybeRewriteUrl_rewrite v b u hv hs hr
  have hv2 : maybeRewriteUrl v b ≠ [] := by
    rw [h1]
    exact makeProxyUrl_ne_nil u
  have hs2 : shouldRewriteAttr (maybeRewriteUrl v b) = true := by
    rw [h1]
    exact shouldRewriteAttr_proxyLink _ (encodeURIComponent_chars u)
  have hr2 : resolveURL (maybeRewriteUrl v b) b =
      some (originOf (.hier sch host port [] none none) ++ maybeRewriteUrl v b) := by
    rw [h1]
    exact resolveURL_proxyLink b sch host port segs q f u hb
  refine ⟨by rw [h1]; exact embeddedParam_makeProxyUrl u, decode_encode u, ?_, ?_, ?_⟩
  · exact maybeRewriteUrl_rewrite _ _ _ hv2 hs2 hr2
  · rw [maybeRewriteUrl_rewrite _ _ _ hv2 hs2 hr2]
    exact embeddedParam_makeProxyUrl _
  · exact decode_encode _

/-- Witness for the amended C5 at the concrete inputs of the
counterexample. -/
theorem C5_double_rewrite_witness :
    parseURL "https://example.com/".data =
      some (.hier "https".data "example.com".data none [[]] none none) ∧
    "/about".data ≠ [] ∧
    shouldRewriteAttr "/about".data = true ∧
    resolveURL "/about".data "https://example.com/".data =
      some "https://example.com/about".data ∧
    (embeddedParam (maybeRewriteUrl "/about".data "https://example.com/".data) =
      some (encodeURIComponent "https://example.com/about".data) ∧
    decodeURIComponent (encodeURIComponent "https://example.com/about".data) =
      some "https://example.com/about".data ∧
    maybeRewriteUrl (maybeRewriteUrl "/about".data "https://example.com/".data)
        "https://example.com/".data =
      makeProxyUrl (originOf (.hier "https".data "example.com".data none [] none none) ++
        maybeRewriteUrl "/about".data "https://example.com/".data) ∧
    embeddedParam (maybeRewriteUrl (maybeRewriteUrl "/about".data "https://example.com/".data)
        "https://example.com/".data) =
      some (encodeURIComponent
        (originOf (.hier "https".data "example.com".data none [] none none) ++
          maybeRewriteUrl "/about".data "https://example.com/".data)) ∧
    decodeURIComponent (encodeURIComponent
        (originOf (.hier "https".data "example.com".data none [] none none) ++
          maybeRewriteUrl "/about".data "https://example.com/".data)) =
      some (originOf (.hier "https".data "example.com".data none [] none none) ++
        maybeRewriteUrl "/about".data "https://example.com/".data)) :=
  ⟨by decide, by decide, by decide, by decide,
    C5_double_rewrite "/about".data "https://example.com/".data
      "https".data "example.com".data none [[]] none none
      "https://example.com/about".data
      (by decide) (by decide) (by decide) (by decide)⟩


/-! ### Header-object lemmas for the handler -/

theorem lookupKey_objectSet_self (m : List (List Char × List Char)) (k v : List Char) :
    lookupKey (objectSet m k v) k = some v := by
  induction m with
  | nil => simp [objectSet, lookupKey]
  | cons kv rest ih =>
    by_cases h : kv.1 = k
    · simp [objectSet, lookupKey, h]
    · simp only [objectSet, lookupKey, if_neg h]
      exact ih

theorem lookupKey_objectSet_ne (m : List (List Char × List Char)) (k v k' : List Char)
    (h : k' ≠ k) : lookupKey (objectSet m k v) k' = lookupKey m k' := by
  induction m with
  | nil =>
    simp only [objectSet, lookupKey]
    rw [if_neg (fun hh => h hh.symm)]
  | cons kv rest ih =>
    by_cases hk : kv.1 = k
    · simp only [objectSet, if_pos hk, lookupKey]
      rw [if_neg (fun hh => h hh.symm)]
      rw [if_neg (by rw [hk]; exact fun hh => h hh.symm)]
    · simp only [objectSet, if_neg hk, lookupKey]
      by_cases hk2 : kv.1 = k'
      · rw [if_pos hk2, if_pos hk2]
      · rw [if_neg hk2, if_neg hk2]
        exact ih

theorem buildOutHeaders_acao (hs : List (List Char × List Char)) :
    lookupKey (buildOutHeaders hs) "access-control-allow-origin".data = some "*".data := by
  unfold buildOutHeaders
  rw [lookupKey_objectSet_ne _ _ _ _ (by decide)]
  exact lookupKey_objectSet_self _ _ _


theorem handlerInner_ok_headers (apiKey : Option (List Char))
    (jsonParse : List Char → Option (Option (List Char)))
    (upstream : Except (List Char) UpstreamResponse) (event : NFEvent) (r : NFResponse)
    (hI : handlerInner apiKey jsonParse upstream event = Except.ok r) :
    lookupKey r.headers "access-control-allow-origin".data = some "*".data ∨
    (r.headers = [] ∧ (r.statusCode = 400 ∨ r.statusCode = 401 ∨ r.statusCode = 403)) := by
  unfold handlerInner at hI
  split at hI
  · cases hI
    left
    decide
  · split at hI
    · cases hI
    · cases hI
      right
      exact ⟨rfl, Or.inl rfl⟩
    · split at hI
      · cases hI
        right
        exact ⟨rfl, Or.inr (Or.inl rfl)⟩
      · split at hI
        · cases hI
          right
          exact ⟨rfl, Or.inl rfl⟩
        · split at hI
          · cases hI
            right
            exact ⟨rfl, Or.inr (Or.inr rfl)⟩
          · split at hI
            · cases hI
            · rename_i res
              by_cases hhtml :
                  isHtmlContentType ((lookupHeaderCI res.headers "content-type".data).getD []) = true
              · rw [if_pos hhtml] at hI
                cases hI
                left
                dsimp only
                rw [lookupKey_objectSet_ne _ _ _ _ (by decide)]
                exact buildOutHeaders_acao _
              · rw [if_neg hhtml] at hI
                cases hI
                left
                dsimp only
                split
                · exact buildOutHeaders_acao _
                · rw [lookupKey_objectSet_ne _ _ _ _ (by decide)]
                  exact buildOutHeaders_acao _


/-! ### Claims C3 and C10 -/

/-- C3 fails as stated: the early 400 missing-parameter response is
returned as a literal with no headers field at all, so it carries no
cross-origin header. -/
theorem C3_counterexample :
    (handler none (fun _ => none) (Except.error [])
        ⟨"GET".data, [], [], none, false⟩).statusCode = 400 ∧
    (handler none (fun _ => none) (Except.error [])
        ⟨"GET".data, [], [], none, false⟩).body = "Missing url parameter".data ∧
    lookupKey (handler none (fun _ => none) (Except.error [])
        ⟨"GET".data, [], [], none, false⟩).headers
      "access-control-allow-origin".data = none := by decide

/-- C3 amended: every handler response either carries the permissive
cross-origin header, or is one of the four early error responses (status
400, 401 or 403), which are returned with no headers at all. -/
theorem C3_cors_amended (apiKey : Option (List Char))
    (jsonParse : List Char → Option (Option (List Char)))
    (upstream : Except (List Char) UpstreamResponse) (event : NFEvent) :
    lookupKey (handler apiKey jsonParse upstream event).headers
        "access-control-allow-origin".data = some "*".data ∨
    ((handler apiKey jsonParse upstream event).headers = [] ∧
      ((handler apiKey jsonParse upstream event).statusCode = 400 ∨
       (handler apiKey jsonParse upstream event).statusCode = 401 ∨
       (handler apiKey jsonParse upstream event).statusCode = 403)) := by
  unfold handler
  cases hI : handlerInner apiKey jsonParse upstream event with
  | error e =>
    left
    rfl
  | ok r =>
    exact handlerInner_ok_headers apiKey jsonParse upstream event r hI

/-- C10: with no url query parameter and a non-empty body that fails to
parse as JSON, the exception from JSON.parse reaches the catch-all and the
handler answers 500, not the 400 missing-parameter response. -/
theorem C10_invalid_json_500 (apiKey : Option (List Char))
    (jsonParse : List Char → Option (Option (List Char)))
    (upstream : Except (List Char) UpstreamResponse) (event : NFEvent) (b : List Char)
    (hm : event.httpMethod ≠ "OPTIONS".data)
    (hq : lookupKey event.queryStringParameters "url".data = none)
    (hb : event.body = some b) (hbne : b ≠ []) (hj : jsonParse b = none) :
    (handler apiKey jsonParse upstream event).statusCode = 500 ∧
    (handler apiKey jsonParse upstream event).statusCode ≠ 400 ∧
    startsWithL "Proxy error: ".data (handler apiKey jsonParse upstream event).body = true := by
  have hex : extractTarget jsonParse event =
      Except.error "SyntaxError: Unexpected token in JSON".data := by
    unfold extractTarget
    rw [hq]
    rw [if_neg (by simp)]
    rw [hb]
    simp only [if_neg hbne, hj]
  have hInner : handlerInner apiKey jsonParse upstream event =
      Except.error "SyntaxError: Unexpected token in JSON".data := by
    unfold handlerInner
    rw [if_neg hm, hex]
  unfold handler
  rw [hInner]
  refine ⟨rfl, by decide, ?_⟩
  exact startsWithL_self_append _ _

/-- Witness for C10 at a concrete event with an unparseable body. -/
theorem C10_invalid_json_500_witness :
    ("GET".data ≠ "OPTIONS".data) ∧
    lookupKey ([] : List (List Char × List Char)) "url".data = none ∧
    (some "not json".data = some "not json".data) ∧
    "not json".data ≠ [] ∧
    ((fun _ : List Char => (none : Option (Option (List Char)))) "not json".data = none) ∧
    ((handler none (fun _ => none) (Except.error [])
        ⟨"GET".data, [], [], some "not json".data, false⟩).statusCode = 500 ∧
    (handler none (fun _ => none) (Except.error [])
        ⟨"GET".data, [], [], some "not json".data, false⟩).statusCode ≠ 400 ∧
    startsWithL "Proxy error: ".data (handler none (fun _ => none) (Except.error [])
        ⟨"GET".data, [], [], some "not json".data, false⟩).body = true) :=
  ⟨by decide, rfl, rfl, by decide, rfl,
    C10_invalid_json_500 none (fun _ => none) (Except.error [])
      ⟨"GET".data, [], [], some "not json".data, false⟩ "not json".data
      (by decide) rfl rfl (by decide) rfl⟩


/-! ### Claim C9 -/

theorem splitOnCh_ne_nil (k : Nat) (l : List Char) : splitOnCh k l ≠ [] := by
  cases l with
  | nil => simp [splitOnCh]
  | cons c cs =>
    unfold splitOnCh
    by_cases h : c.toNat = k
    · simp [h]
    · rw [if_neg (by simpa using h)]
      cases hsp : splitOnCh k cs <;> simp

theorem splitOnCh_headD (k : Nat) (l : List Char) :
    (splitOnCh k l).headD [] = (breakAt (fun c => c.toNat = k) l).1 := by
  induction l with
  | nil => rfl
  | cons c cs ih =>
    unfold splitOnCh breakAt
    by_cases h : c.toNat = k
    · simp [h]
    · rw [if_neg (by simpa using h), if_neg (by simpa using h)]
      cases hsp : splitOnCh k cs with
      | nil => exact absurd hsp (splitOnCh_ne_nil k cs)
      | cons s ss =>
        rw [hsp] at ih
        simp only [List.headD_cons] at ih
        simp only [List.headD_cons, ih]

/-- The handler treats a response as HTML exactly when the media-type
portion of its content type, trimmed and lowercased, is text/html. -/
theorem isHtmlContentType_iff (ct : List Char) :
    isHtmlContentType ct = true ↔
      (ct ≠ [] ∧ lowerStr (trimJs (mediaTypePart ct)) = "text/html".data) := by
  unfold isHtmlContentType mediaTypePart
  by_cases h : ct = []
  · simp [h]
  · rw [if_neg h, splitOnCh_headD]
    simp [h]

/-- C9 core: when the guards pass and the content type is not HTML, the
response mirrors the upstream status, marks the body base64-encoded, its
body decodes back to the exact upstream bytes, and the content type is
mirrored when present. -/
theorem C9_binary_passthrough (apiKey : Option (List Char))
    (jsonParse : List Char → Option (Option (List Char)))
    (res : UpstreamResponse) (event : NFEvent) (t : List Char) (tu : URLModel)
    (hm : event.httpMethod ≠ "OPTIONS".data)
    (ht : extractTarget jsonParse event = Except.ok (some t))
    (ha : authorizedCheck apiKey event = true)
    (hp : parseURL t = some tu)
    (hbk : isBlockedHost (hostOfURL tu) = false)
    (hh : isHtmlContentType ((lookupHeaderCI res.headers "content-type".data).getD []) = false)
    (hbytes : ∀ x ∈ res.bytes, x < 256) :
    (∀ ct2, isHtmlContentType ct2 = true ↔
      (ct2 ≠ [] ∧ lowerStr (trimJs (mediaTypePart ct2)) = "text/html".data)) ∧
    (handler apiKey jsonParse (Except.ok res) event).statusCode = res.status ∧
    (handler apiKey jsonParse (Except.ok res) event).isBase64Encoded = true ∧
    base64Decode (handler apiKey jsonParse (Except.ok res) event).body = some res.bytes ∧
    ((lookupHeaderCI res.headers "content-type".data).getD [] ≠ [] →
      lookupKey (handler apiKey jsonParse (Except.ok res) event).headers "content-type".data =
        some ((lookupHeaderCI res.headers "content-type".data).getD [])) := by
  have hInner : handlerInner apiKey jsonParse (Except.ok res) event =
      Except.ok ⟨res.status,
        (if (lookupHeaderCI res.headers "content-type".data).getD [] = []
          then buildOutHeaders res.headers
          else objectSet (buildOutHeaders res.headers) "content-type".data
            ((lookupHeaderCI res.headers "content-type".data).getD [])),
        base64Encode res.bytes, true⟩ := by
    unfold handlerInner
    rw [if_neg hm, ht]
    simp only [ha, hp, hbk, hh]
    simp
  have hH : handler apiKey jsonParse (Except.ok res) event =
      ⟨res.status,
        (if (lookupHeaderCI res.headers "content-type".data).getD [] = []
          then buildOutHeaders res.headers
          else objectSet (buildOutHeaders res.headers) "content-type".data
            ((lookupHeaderCI res.headers "content-type".data).getD [])),
        base64Encode res.bytes, true⟩ := by
    unfold handler
    rw [hInner]
  refine ⟨isHtmlContentType_iff, ?_, ?_, ?_, ?_⟩
  · rw [hH]
  · rw [hH]
  · rw [hH]
    dsimp only
    exact base64_decode_encode res.bytes hbytes
  · intro hct
    rw [hH]
    dsimp only
    rw [if_neg hct]
    exact lookupKey_objectSet_self _ _ _

/-- Witness for C9 at a concrete png response. -/
theorem C9_binary_passthrough_witness :
    ("GET".data ≠ "OPTIONS".data) ∧
    extractTarget (fun _ => none) ⟨"GET".data, [],
        [("url".data, "https://example.com/a.png".data)], none, false⟩ =
      Except.ok (some "https://example.com/a.png".data) ∧
    authorizedCheck none ⟨"GET".data, [],
        [("url".data, "https://example.com/a.png".data)], none, false⟩ = true ∧
    parseURL "https://example.com/a.png".data =
      some (.hier "https".data "example.com".data none ["a.png".data] none none) ∧
    isBlockedHost (hostOfURL (.hier "https".data "example.com".data none
        ["a.png".data] none none)) = false ∧
    isHtmlContentType ((lookupHeaderCI
        [("content-type".data, "image/png".data)] "content-type".data).getD []) = false ∧
    (∀ x ∈ [137, 80, 78, 71], x < 256) ∧
    ((∀ ct2, isHtmlContentType ct2 = true ↔
      (ct2 ≠ [] ∧ lowerStr (trimJs (mediaTypePart ct2)) = "text/html".data)) ∧
    (handler none (fun _ => none)
        (Except.ok ⟨200, [("content-type".data, "image/png".data)],
          "https://example.com/a.png".data, [], [137, 80, 78, 71]⟩)
        ⟨"GET".data, [], [("url".data, "https://example.com/a.png".data)],
          none, false⟩).statusCode = 200 ∧
    (handler none (fun _ => none)
        (Except.ok ⟨200, [("content-type".data, "image/png".data)],
          "https://example.com/a.png".data, [], [137, 80, 78, 71]⟩)
        ⟨"GET".data, [], [("url".data, "https://example.com/a.png".data)],
          none, false⟩).isBase64Encoded = true ∧
    base64Decode (handler none (fun _ => none)
        (Except.ok ⟨200, [("content-type".data, "image/png".data)],
          "https://example.com/a.png".data, [], [137, 80, 78, 71]⟩)
        ⟨"GET".data, [], [("url".data, "https://example.com/a.png".data)],
          none, false⟩).body = some [137, 80, 78, 71] ∧
    (((lookupHeaderCI [("content-type".data, "image/png".data)]
        "content-type".data).getD []) ≠ [] →
      lookupKey (handler none (fun _ => none)
        (Except.ok ⟨200, [("content-type".data, "image/png".data)],
          "https://example.com/a.png".data, [], [137, 80, 78, 71]⟩)
        ⟨"GET".data, [], [("url".data, "https://example.com/a.png".data)],
          none, false⟩).headers "content-type".data =
        some ((lookupHeaderCI [("content-type".data, "image/png".data)]
          "content-type".data).getD []))) :=
  ⟨by decide, rfl, rfl, by decide, by decide, by decide, by decide,
    C9_binary_passthrough none (fun _ => none)
      ⟨200, [("content-type".data, "image/png".data)],
        "https://example.com/a.png".data, [], [137, 80, 78, 71]⟩
      ⟨"GET".data, [], [("url".data, "https://example.com/a.png".data)], none, false⟩
      "https://example.com/a.png".data
      (.hier "https".data "example.com".data none ["a.png".data] none none)
      (by decide) rfl rfl (by decide) (by decide) (by decide) (by decide)⟩


/-! ### Claims C1 and C8 -/

/-- C1 fails as stated: an anchor with href http:// cannot be resolved
(fail open), so its unchanged output value is neither non-navigable nor a
proxy-relative link. -/
theorem C1_counterexample :
    ¬ c1AsStated [⟨"a".data, [("href".data, "http://".data)]⟩] "https://example.com/".data := by
  intro h
  have hres : resolveURL "http://".data "https://example.com/".data = none := by decide
  have hinst := h ⟨"a".data, [("href".data, "http://".data)]⟩ (by simp)
    ("a".data, "href".data) (by decide) rfl "http://".data (by decide)
  rcases hinst with hnn | ⟨u, orig, horig, hresu, _, _⟩
  · exact absurd hnn (by decide)
  · have : orig = "http://".data := by
      have : some orig = some "http://".data := by
        rw [← horig]
        decide
      exact Option.some.inj this
    rw [this, hres] at hresu
    cases hresu

/-- C1 amended: every link-bearing attribute value in the transformed
document is the unchanged original when the original is empty,
non-navigable, or fails to resolve, and otherwise is the proxy link whose
embedded parameter decodes to the resolution of the original against the
base. -/
theorem C1_link_invariant (base : List Char) (e : Elem) (t a orig v : List Char)
    (hmem : (t, a) ∈ attrTable) (htag : e.tag = t)
    (horig : lookupKey e.attrs a = some orig)
    (hv : lookupKey (transformElem base e).attrs a = some v) :
    (v = orig ∧ (orig = [] ∨ nonNavigableVal orig = true ∨ resolveURL orig base = none)) ∨
    (∃ u, resolveURL orig base = some u ∧ v = makeProxyUrl u ∧
      embeddedParam v = some (encodeURIComponent u) ∧
      decodeURIComponent (encodeURIComponent u) = some u) := by
  have hfind : attrTable.find? (fun p => p.1 == e.tag) = some (t, a) := by
    rw [htag]
    fin_cases hmem <;> decide
  unfold transformElem at hv
  rw [hfind] at hv
  dsimp only at hv
  rw [horig] at hv
  dsimp only at hv
  by_cases ho : orig = []
  · rw [if_pos ho] at hv
    left
    exact ⟨(Option.some.inj (horig.symm.trans hv)).symm, Or.inl ho⟩
  · rw [if_neg ho] at hv
    dsimp only at hv
    rw [lookupKey_objectSet_self] at hv
    have hveq : v = maybeRewriteUrl orig base := (Option.some.inj hv).symm
    by_cases hnn : nonNavigableVal orig = true
    · left
      refine ⟨?_, Or.inr (Or.inl hnn)⟩
      rw [hveq]
      exact maybeRewriteUrl_unchanged_of orig base (Or.inr (Or.inl hnn))
    · rcases hres : resolveURL orig base with _ | u
      · left
        refine ⟨?_, Or.inr (Or.inr rfl)⟩
        rw [hveq]
        exact maybeRewriteUrl_unchanged_of orig base (Or.inr (Or.inr hres))
      · right
        have hs : shouldRewriteAttr orig = true := by
          unfold shouldRewriteAttr
          rw [if_neg ho]
          simp [hnn]
        refine ⟨u, rfl, ?_, ?_, decode_encode u⟩
        · rw [hveq, maybeRewriteUrl_rewrite orig base u ho hs hres]
        · rw [hveq, maybeRewriteUrl_rewrite orig base u ho hs hres]
          exact embeddedParam_makeProxyUrl u

/-- Witness for the amended C1 at a rewritten anchor. -/
theorem C1_link_invariant_witness :
    (("a".data, "href".data) ∈ attrTable) ∧
    (Elem.mk "a".data [("href".data, "/about".data)]).tag = "a".data ∧
    lookupKey (Elem.mk "a".data [("href".data, "/about".data)]).attrs "href".data =
      some "/about".data ∧
    lookupKey (transformElem "https://example.com/".data
        (Elem.mk "a".data [("href".data, "/about".data)])).attrs "href".data =
      some (maybeRewriteUrl "/about".data "https://example.com/".data) ∧
    (((maybeRewriteUrl "/about".data "https://example.com/".data) = "/about".data ∧
        ("/about".data = ([] : List Char) ∨
          nonNavigableVal "/about".data = true ∨
          resolveURL "/about".data "https://example.com/".data = none)) ∨
      (∃ u, resolveURL "/about".data "https://example.com/".data = some u ∧
        maybeRewriteUrl "/about".data "https://example.com/".data = makeProxyUrl u ∧
        embeddedParam (maybeRewriteUrl "/about".data "https://example.com/".data) =
          some (encodeURIComponent u) ∧
        decodeURIComponent (encodeURIComponent u) = some u)) :=
  ⟨by decide, rfl, by decide, by decide,
    C1_link_invariant "https://example.com/".data
      (Elem.mk "a".data [("href".data, "/about".data)])
      "a".data "href".data "/about".data
      (maybeRewriteUrl "/about".data "https://example.com/".data)
      (by decide) rfl (by decide) (by decide)⟩

theorem intercalate_pair (sep a b : List Char) :
    List.intercalate sep [a, b] = a ++ sep ++ b := by
  simp [List.intercalate]

/-- C8 fails as stated: with content 5;url=a;b the url part after the
first semicolon is url=a;b, which strips and rewrites to R, but the code
reassembles 5;url=R;b with the trailing field preserved, not exactly
5;url=R. -/
theorem C8_counterexample :
    lookupKey (transformElem "https://example.com/".data
        ⟨"meta".data, [("http-equiv".data, "refresh".data),
          ("content".data, "5;url=a;b".data)]⟩).attrs "content".data =
      some ("5;url=".data ++
        maybeRewriteUrl (stripUrlEq "url=a;b".data) "https://example.com/".data ++
        ";b".data) ∧
    lookupKey (transformElem "https://example.com/".data
        ⟨"meta".data, [("http-equiv".data, "refresh".data),
          ("content".data, "5;url=a;b".data)]⟩).attrs "content".data ≠
      some ("5;url=".data ++
        maybeRewriteUrl (stripUrlEq "url=a;b".data) "https://example.com/".data) := by decide

/-- C8 amended: for a meta element whose http-equiv equals refresh
case-insensitively and whose content splits at exactly one semicolon into
a delay and a url part, the content attribute becomes the delay, a
semicolon, url= and the rewrite of the url part with its optional leading
url= stripped. With further semicolons the code rewrites the full joined
remainder but keeps the fields beyond the second appended after it. -/
theorem C8_meta_refresh (base : List Char) (e : Elem) (he content delay upart : List Char)
    (htag : e.tag = "meta".data)
    (hhe : lookupKey e.attrs "http-equiv".data = some he)
    (hlow : lowerStr he = "refresh".data)
    (hc : lookupKey e.attrs "content".data = some content)
    (hsplit : splitOnCh 59 content = [delay, upart]) :
    lookupKey (transformElem base e).attrs "content".data =
      some (delay ++ ';' :: ("url=".data ++ maybeRewriteUrl (stripUrlEq upart) base)) := by
  have hmrc : metaRefreshContent base content =
      delay ++ ';' :: ("url=".data ++ maybeRewriteUrl (stripUrlEq upart) base) := by
    unfold metaRefreshContent
    rw [hsplit]
    rw [if_pos (by simp)]
    have hdrop : ([delay, upart].drop 1) = [upart] := rfl
    rw [hdrop]
    rw [show List.intercalate [';'] [upart] = upart from by simp [List.intercalate]]
    dsimp only
    rw [show ([delay, upart].set 1 ("url=".data ++ maybeRewriteUrl (stripUrlEq upart) base)) =
      [delay, "url=".data ++ maybeRewriteUrl (stripUrlEq upart) base] from rfl]
    rw [intercalate_pair]
    simp
  have hfind : attrTable.find? (fun p => p.1 == e.tag) = none := by
    rw [htag]
    decide
  unfold transformElem
  rw [hfind]
  unfold metaTransform
  rw [if_pos htag, hhe]
  dsimp only
  rw [if_pos hlow, hc]
  dsimp only
  rw [lookupKey_objectSet_self, hmrc]

/-- Witness for the amended C8 at a concrete refresh element. -/
theorem C8_meta_refresh_witness :
    (Elem.mk "meta".data [("http-equiv".data, "Refresh".data),
        ("content".data, "5; url=/next".data)]).tag = "meta".data ∧
    lookupKey (Elem.mk "meta".data [("http-equiv".data, "Refresh".data),
        ("content".data, "5; url=/next".data)]).attrs "http-equiv".data =
      some "Refresh".data ∧
    lowerStr "Refresh".data = "refresh".data ∧
    lookupKey (Elem.mk "meta".data [("http-equiv".data, "Refresh".data),
        ("content".data, "5; url=/next".data)]).attrs "content".data =
      some "5; url=/next".data ∧
    splitOnCh 59 "5; url=/next".data = ["5".data, " url=/next".data] ∧
    lookupKey (transformElem "https://example.com/".data
        (Elem.mk "meta".data [("http-equiv".data, "Refresh".data),
          ("content".data, "5; url=/next".data)])).attrs "content".data =
      some ("5".data ++ ';' ::
        ("url=".data ++ maybeRewriteUrl (stripUrlEq " url=/next".data)
          "https://example.com/".data)) :=
  ⟨rfl, by decide, by decide, by decide, by decide,
    C8_meta_refresh "https://example.com/".data
      (Elem.mk "meta".data [("http-equiv".data, "Refresh".data),
        ("content".data, "5; url=/next".data)])
      "Refresh".data "5; url=/next".data "5".data " url=/next".data
      rfl (by decide) (by decide) (by decide) (by decide)⟩

end CGProxy
